import Mathlib

/-!
# Tenant manager: a shallow embedding of the lifecycle orchestrator

The Go program keeps three external systems in step: a SQLite table of tenants
(package `database`), a directory tree per tenant (package `os`) and the
container daemon (package `utils`, a wrapper over the Docker SDK).  The
embedding makes the three systems one explicit `World` value that every
function takes and returns.

* Go's `error` is `Option String` (`none` is `nil`), a `(T, error)` result is
  `Except String T`; `fmt.Errorf("ctx: %w", err)` is string concatenation.
* Every call that leaves the process (a gorm query, an `os` call, a Docker SDK
  call) first consults `World.faults` at the position of the call: `some msg`
  makes the call fail with `msg` and change nothing.  Otherwise the call fails
  only for a reason visible in the state (no such row, no such container, a
  name already taken, ...).
* Every such call is appended to `World.trace` with its outcome, the way a
  fake store or fake runtime would count calls.
* Go's `int` is the 64-bit two's-complement integer: arithmetic goes through
  `wrapInt`.
* Timestamps (`CreatedAt`, `UpdatedAt`) and the two-second sleep before the log
  read are real time and are left out; the table keeps its rows in insertion
  order, which stands for `created_at`.
* Go's `float64` is the rationals rounded to a 53-bit significand
  (`toFloat64`); it is used by the page count of `ListTenants` only.
* The substring test of package `handlers` reads a Go string as its sequence
  of bytes.
* A path is its list of segments; a tenant name is one segment (the handler
  validates names against `^[a-zA-Z0-9_]+$` before it calls the service), so
  `filepath.Join(baseDir, "tenants", name)` appends two segments.
-/

namespace TenantManager

/-- Go's `int` on a 64-bit target: the representative of `x` in `[-2^63, 2^63)`. -/
def wrapInt (x : Int) : Int := (x + 2 ^ 63) % 2 ^ 64 - 2 ^ 63

/-- Largest value of Go's `int`. -/
def maxInt : Int := 2 ^ 63 - 1

/-- Go's `error`: `none` is `nil`. -/
abbrev Err := Option String

/-- A cleaned file path, as its segments. -/
abbrev Path := List String

/-! ## Package `models` -/

namespace models

def StatusRunning : String := "running"
def StatusStopped : String := "stopped"
def StatusError : String := "error"
def StatusDeleted : String := "deleted"

/-- `models.IsValidStatus`. -/
def IsValidStatus (status : String) : Bool :=
  [StatusRunning, StatusStopped, StatusError, StatusDeleted].contains status

/-- `models.Tenant`, with the `Username` the service fills in. -/
structure Tenant where
  ID : Int
  Name : String
  Port : Int
  ContainerName : String
  VolumeName : String
  Status : String
  URL : String
  Username : String
  Password : String
  deriving DecidableEq, Repr

/-- `models.PaginationMeta`. -/
structure PaginationMeta where
  Total : Int
  Page : Int
  PerPage : Int
  MaxPage : Int
  deriving DecidableEq, Repr

end models

/-! ## The three external systems -/

namespace database

/-- `database.Tenant`: one row of the `tenants` table. -/
structure Tenant where
  ID : Nat
  Name : String
  Port : Int
  ContainerName : String
  VolumeName : String
  Status : String
  deriving DecidableEq, Repr

/-- The `tenants` table: rows in insertion order and the next primary key. -/
structure Store where
  rows : List Tenant
  nextID : Nat
  deriving DecidableEq, Repr

end database

/-- A container as the daemon knows it: `State.Running` and `State.Status` are
what `ContainerInspect` reports. -/
structure Container where
  Name : String
  Image : String
  HostPort : Int
  FilesPath : Path
  Volume : String
  ConfigPath : Path
  Running : Bool
  Status : String
  deriving DecidableEq, Repr

/-- The daemon: containers, named volumes, local images, and the combined
stdout and stderr of each container by name. -/
structure Docker where
  containers : List Container
  volumes : List String
  images : List String
  output : String → String

/-- The calls that leave the process. -/
inductive Call where
  | dbGetByName (name : String)
  | dbMaxPort
  | dbCreate (name : String) (port : Int)
  | dbCount
  | dbFind (limit offset : Int)
  | dbUpdateStatus (name status : String)
  | dbDelete (name : String)
  | mkdirAll (p : Path)
  | removeAll (p : Path)
  | volumeList
  | volumeCreate (name : String)
  | volumeRemove (name : String)
  | imageInspect (ref : String)
  | imagePull (ref : String)
  | pullRead (ref : String)
  | containerCreate (name : String)
  | containerStart (name : String)
  | containerStop (name : String)
  | containerRemove (name : String)
  | containerInspect (name : String)
  | containerLogs (name : String)
  | logsRead (name : String)
  deriving DecidableEq, Repr

/-- One entry of the call log: the call and whether it returned a nil error. -/
structure Event where
  call : Call
  ok : Bool
  deriving DecidableEq, Repr

/-- Calls addressed to the container daemon. -/
def Call.isRuntime : Call → Bool
  | .volumeList | .volumeCreate _ | .volumeRemove _ | .imageInspect _ | .imagePull _
  | .pullRead _ | .containerCreate _ | .containerStart _ | .containerStop _
  | .containerRemove _ | .containerInspect _ | .containerLogs _ | .logsRead _ => true
  | _ => false

/-- Calls that write to the Store. -/
def Call.isStoreWrite : Call → Bool
  | .dbCreate _ _ | .dbUpdateStatus _ _ | .dbDelete _ => true
  | _ => false

/-- The state of the three systems, the injected faults and the call log. -/
structure World where
  store : database.Store
  dirs : List Path
  docker : Docker
  faults : Nat → Option String
  trace : List Event

/-- The fault injected into the next external call, if any. -/
def World.fault (w : World) : Option String := w.faults w.trace.length

/-- Append a call and its outcome to the log. -/
def World.emit (w : World) (c : Call) (ok : Bool) : World :=
  { w with trace := w.trace ++ [⟨c, ok⟩] }

/-- The calls logged between `w` and a later world `w'`. -/
def World.newCalls (w w' : World) : List Event := w'.trace.drop w.trace.length

/-- Number of calls the daemon has received. -/
def World.runtimeCalls (w : World) : Nat := (w.trace.filter (fun e => e.call.isRuntime)).length

/-- The daemon has a container of this name. -/
def World.hasContainer (w : World) (name : String) : Bool :=
  w.docker.containers.any (fun c => c.Name == name)

/-- The daemon has a volume of this name. -/
def World.hasVolume (w : World) (name : String) : Bool := w.docker.volumes.contains name

/-- The directory exists. -/
def World.hasDir (w : World) (p : Path) : Bool := w.dirs.contains p

/-- The Store has a row for this name. -/
def World.hasRecord (w : World) (name : String) : Bool :=
  w.store.rows.any (fun t => t.Name == name)

/-- The status the Store holds for this name. -/
def World.storedStatus (w : World) (name : String) : Option String :=
  (w.store.rows.find? (fun t => t.Name == name)).map (fun t => t.Status)

/-! ## Package `database` -/

namespace database

/-- The row `Order("port DESC").Limit(1)` selects. -/
def topByPort : List Tenant → Option Tenant
  | [] => none
  | t :: ts =>
    match topByPort ts with
    | none => some t
    | some b => if b.Port ≤ t.Port then some t else some b

/-- `database.CreateTenant`: insert under the unique indexes on name and port;
the stored row carries the primary key the engine assigned. -/
def CreateTenant (w : World) (tenant : Tenant) : Except String Tenant × World :=
  let c := Call.dbCreate tenant.Name tenant.Port
  match w.fault with
  | some e => (.error ("failed to insert tenant: " ++ e), w.emit c false)
  | none =>
    if w.store.rows.any (fun t => t.Name == tenant.Name) then
      (.error "failed to insert tenant: UNIQUE constraint failed: tenants.name", w.emit c false)
    else if w.store.rows.any (fun t => t.Port == tenant.Port) then
      (.error "failed to insert tenant: UNIQUE constraint failed: tenants.port", w.emit c false)
    else
      let row : Tenant := { tenant with ID := w.store.nextID }
      let store : Store := { rows := w.store.rows ++ [row], nextID := w.store.nextID + 1 }
      (.ok row, World.emit { w with store := store } c true)

/-- `database.GetTenantByName`. -/
def GetTenantByName (w : World) (name : String) : Except String Tenant × World :=
  let c := Call.dbGetByName name
  match w.fault with
  | some e => (.error ("failed to query tenant: " ++ e), w.emit c false)
  | none =>
    match w.store.rows.find? (fun t => t.Name == name) with
    | none => (.error "tenant not found", w.emit c false)
    | some t => (.ok t, w.emit c true)

/-- `database.GetAllTenants`: the count, then one page of the rows, newest
first.  gorm adds `LIMIT` and `OFFSET` only for positive values. -/
def GetAllTenants (w : World) (page perPage : Int) : Except String (List Tenant × Int) × World :=
  match w.fault with
  | some e => (.error ("failed to count tenants: " ++ e), w.emit .dbCount false)
  | none =>
    let w1 := w.emit .dbCount true
    let total : Int := w1.store.rows.length
    let offset := wrapInt ((page - 1) * perPage)
    let c := Call.dbFind perPage offset
    match w1.fault with
    | some e => (.error ("failed to query tenants: " ++ e), w1.emit c false)
    | none =>
      let skipped := w1.store.rows.reverse.drop offset.toNat
      let tenants := if 0 < perPage then skipped.take perPage.toNat else skipped
      (.ok (tenants, wrapInt total), w1.emit c true)

/-- `database.UpdateTenantStatus`. -/
def UpdateTenantStatus (w : World) (name status : String) : Err × World :=
  let c := Call.dbUpdateStatus name status
  match w.fault with
  | some e => (some ("failed to update tenant status: " ++ e), w.emit c false)
  | none =>
    if w.store.rows.any (fun t => t.Name == name) then
      let rows := w.store.rows.map
        (fun (t : Tenant) => if t.Name == name then { t with Status := status } else t)
      (none, World.emit { w with store := { w.store with rows := rows } } c true)
    else (some "tenant not found", w.emit c false)

/-- `database.DeleteTenant`. -/
def DeleteTenant (w : World) (name : String) : Err × World :=
  let c := Call.dbDelete name
  match w.fault with
  | some e => (some ("failed to delete tenant: " ++ e), w.emit c false)
  | none =>
    if w.store.rows.any (fun t => t.Name == name) then
      let rows := w.store.rows.filter (fun (t : Tenant) => !(t.Name == name))
      (none, World.emit { w with store := { w.store with rows := rows } } c true)
    else (some "tenant not found", w.emit c false)

/-- `database.GetNextAvailablePort`. -/
def GetNextAvailablePort (w : World) : Except String Int × World :=
  match w.fault with
  | some e => (.error ("failed to get last port: " ++ e), w.emit .dbMaxPort false)
  | none =>
    match topByPort w.store.rows with
    | none => (.ok 9000, w.emit .dbMaxPort true)
    | some tenant => (.ok (wrapInt (tenant.Port + 1)), w.emit .dbMaxPort true)

end database

/-! ## Package `os` -/

namespace os

/-- `os.MkdirAll`: the directory and every missing parent. -/
def MkdirAll (w : World) (path : Path) : Err × World :=
  match w.fault with
  | some e => (some e, w.emit (.mkdirAll path) false)
  | none =>
    let missing := path.inits.filter (fun p => !p.isEmpty && !w.dirs.contains p)
    (none, World.emit { w with dirs := w.dirs ++ missing } (.mkdirAll path) true)

/-- `os.RemoveAll`: the directory and everything below it; a missing path is
not an error. -/
def RemoveAll (w : World) (path : Path) : Err × World :=
  match w.fault with
  | some e => (some e, w.emit (.removeAll path) false)
  | none =>
    (none, World.emit { w with dirs := w.dirs.filter (fun p => !path.isPrefixOf p) }
      (.removeAll path) true)

end os

/-! ## The Docker SDK client (`dc.cli`) -/

namespace cli

/-- Replace the daemon state. -/
def setDocker (w : World) (d : Docker) : World := { w with docker := d }

/-- `cli.VolumeList`. -/
def VolumeList (w : World) : Except String (List String) × World :=
  match w.fault with
  | some e => (.error e, w.emit .volumeList false)
  | none => (.ok w.docker.volumes, w.emit .volumeList true)

/-- `cli.VolumeCreate`: creating a volume that exists returns it. -/
def VolumeCreate (w : World) (name : String) : Err × World :=
  match w.fault with
  | some e => (some e, w.emit (.volumeCreate name) false)
  | none =>
    let volumes := if w.docker.volumes.contains name then w.docker.volumes
      else w.docker.volumes ++ [name]
    (none, World.emit (setDocker w { w.docker with volumes := volumes }) (.volumeCreate name) true)

/-- `cli.VolumeRemove` with `force = true`: a missing volume is not an error, a
volume mounted by a container is. -/
def VolumeRemove (w : World) (name : String) : Err × World :=
  match w.fault with
  | some e => (some e, w.emit (.volumeRemove name) false)
  | none =>
    if w.docker.containers.any (fun c => c.Volume == name) then
      (some ("remove " ++ name ++ ": volume is in use"), w.emit (.volumeRemove name) false)
    else
      let volumes := w.docker.volumes.filter (fun v => !(v == name))
      (none, World.emit (setDocker w { w.docker with volumes := volumes }) (.volumeRemove name) true)

/-- `cli.ImageInspect`. -/
def ImageInspect (w : World) (ref : String) : Err × World :=
  match w.fault with
  | some e => (some e, w.emit (.imageInspect ref) false)
  | none =>
    if w.docker.images.contains ref then (none, w.emit (.imageInspect ref) true)
    else (some ("No such image: " ++ ref), w.emit (.imageInspect ref) false)

/-- `cli.ImagePull`: on success the image is local once the stream is read. -/
def ImagePull (w : World) (ref : String) : Err × World :=
  match w.fault with
  | some e => (some e, w.emit (.imagePull ref) false)
  | none =>
    let images := if w.docker.images.contains ref then w.docker.images
      else w.docker.images ++ [ref]
    (none, World.emit (setDocker w { w.docker with images := images }) (.imagePull ref) true)

/-- `io.Copy(io.Discard, reader)` on the pull stream. -/
def pullRead (w : World) (ref : String) : Err × World :=
  match w.fault with
  | some e => (some e, w.emit (.pullRead ref) false)
  | none => (none, w.emit (.pullRead ref) true)

/-- `cli.ContainerCreate`: the name must be free and the image local; the new
container is created, not running.  The container ID is its name. -/
def ContainerCreate (w : World) (image : String) (hostPort : Int) (filesPath : Path)
    (volume : String) (configPath : Path) (name : String) : Except String String × World :=
  match w.fault with
  | some e => (.error e, w.emit (.containerCreate name) false)
  | none =>
    if w.docker.containers.any (fun c => c.Name == name) then
      (.error ("Conflict. The container name " ++ name ++ " is already in use"),
        w.emit (.containerCreate name) false)
    else if !w.docker.images.contains image then
      (.error ("No such image: " ++ image), w.emit (.containerCreate name) false)
    else
      let c : Container :=
        { Name := name, Image := image, HostPort := hostPort, FilesPath := filesPath,
          Volume := volume, ConfigPath := configPath, Running := false, Status := "created" }
      (.ok name,
        World.emit (setDocker w { w.docker with containers := w.docker.containers ++ [c] })
          (.containerCreate name) true)

/-- Apply `g` to the containers of this name. -/
def updateContainer (w : World) (name : String) (g : Container → Container) : World :=
  setDocker w { w.docker with
    containers := w.docker.containers.map (fun c => if c.Name == name then g c else c) }

/-- `cli.ContainerStart`. -/
def ContainerStart (w : World) (name : String) : Err × World :=
  match w.fault with
  | some e => (some e, w.emit (.containerStart name) false)
  | none =>
    if w.docker.containers.any (fun c => c.Name == name) then
      (none, World.emit
        (updateContainer w name (fun c => { c with Running := true, Status := "running" }))
        (.containerStart name) true)
    else (some ("No such container: " ++ name), w.emit (.containerStart name) false)

/-- `cli.ContainerStop`: stopping a container that is not running is not an
error and changes nothing. -/
def ContainerStop (w : World) (name : String) : Err × World :=
  match w.fault with
  | some e => (some e, w.emit (.containerStop name) false)
  | none =>
    if w.docker.containers.any (fun c => c.Name == name) then
      (none, World.emit
        (updateContainer w name
          (fun c => if c.Running then { c with Running := false, Status := "exited" } else c))
        (.containerStop name) true)
    else (some ("No such container: " ++ name), w.emit (.containerStop name) false)

/-- `cli.ContainerRemove` with `Force: true`. -/
def ContainerRemove (w : World) (name : String) : Err × World :=
  match w.fault with
  | some e => (some e, w.emit (.containerRemove name) false)
  | none =>
    if w.docker.containers.any (fun c => c.Name == name) then
      let containers := w.docker.containers.filter (fun c => !(c.Name == name))
      (none, World.emit (setDocker w { w.docker with containers := containers })
        (.containerRemove name) true)
    else (some ("No such container: " ++ name), w.emit (.containerRemove name) false)

/-- `cli.ContainerInspect`: `State.Running` and `State.Status`. -/
def ContainerInspect (w : World) (name : String) : Except String (Bool × String) × World :=
  match w.fault with
  | some e => (.error e, w.emit (.containerInspect name) false)
  | none =>
    match w.docker.containers.find? (fun c => c.Name == name) with
    | some c => (.ok (c.Running, c.Status), w.emit (.containerInspect name) true)
    | none => (.error ("No such container: " ++ name), w.emit (.containerInspect name) false)

/-- `cli.ContainerLogs` with stdout and stderr. -/
def ContainerLogs (w : World) (name : String) : Except String String × World :=
  match w.fault with
  | some e => (.error e, w.emit (.containerLogs name) false)
  | none =>
    if w.docker.containers.any (fun c => c.Name == name) then
      (.ok (w.docker.output name), w.emit (.containerLogs name) true)
    else (.error ("No such container: " ++ name), w.emit (.containerLogs name) false)

/-- `io.ReadAll` on the log stream. -/
def logsRead (w : World) (name : String) : Err × World :=
  match w.fault with
  | some e => (some e, w.emit (.logsRead name) false)
  | none => (none, w.emit (.logsRead name) true)

end cli

/-! ## Package `utils`: the container runtime client

A Go statement `x, err := f(...)` followed by `if err != nil` is a `let r := f w ...`
followed by a `match` on `r.1`; `r.2` is the world after the call. -/

namespace utils

/-- The image every tenant runs. -/
def imageRef : String := "filebrowser/filebrowser"

/-- `DockerClient.createVolume`. -/
def createVolume (w : World) (volumeName : String) : Err × World :=
  let r := cli.VolumeList w
  match r.1 with
  | .error e => (some ("failed to list volumes: " ++ e), r.2)
  | .ok volumes =>
    if volumes.any (fun v => v == volumeName) then (none, r.2)
    else
      let r2 := cli.VolumeCreate r.2 volumeName
      match r2.1 with
      | some e => (some ("failed to create volume: " ++ e), r2.2)
      | none => (none, r2.2)

/-- `DockerClient.ensureImage`. -/
def ensureImage (w : World) (imageName : String) : Err × World :=
  let r := cli.ImageInspect w imageName
  match r.1 with
  | some e => (some ("image not found: " ++ e), r.2)
  | none =>
    let r2 := cli.ImagePull r.2 imageName
    match r2.1 with
    | some e => (some ("failed to pull image: " ++ e), r2.2)
    | none =>
      let r3 := cli.pullRead r2.2 imageName
      match r3.1 with
      | some e => (some ("failed to read image pull output: " ++ e), r3.2)
      | none => (none, r3.2)

/-- `DockerClient.CreateAndStartContainer`. -/
def CreateAndStartContainer (w : World) (tenantName : String) (port : Int)
    (filesPath configPath : Path) : Except String String × World :=
  let containerName := "files_" ++ tenantName
  let volumeName := tenantName ++ "_settings_vol"
  let r := createVolume w volumeName
  match r.1 with
  | some e => (.error ("failed to create volume: " ++ e), r.2)
  | none =>
    let r2 := ensureImage r.2 imageRef
    match r2.1 with
    | some e => (.error ("failed to ensure image: " ++ e), r2.2)
    | none =>
      let r3 := cli.ContainerCreate r2.2 imageRef port filesPath volumeName configPath
        containerName
      match r3.1 with
      | .error e => (.error ("failed to create container: " ++ e), r3.2)
      | .ok id =>
        let r4 := cli.ContainerStart r3.2 id
        match r4.1 with
        | some e => (.error ("failed to start container: " ++ e), r4.2)
        | none => (.ok containerName, r4.2)

/-- `DockerClient.StartContainer`. -/
def StartContainer (w : World) (containerName : String) : Err × World :=
  let r := cli.ContainerStart w containerName
  match r.1 with
  | some e => (some ("failed to start container: " ++ e), r.2)
  | none => (none, r.2)

/-- `DockerClient.StopContainer`. -/
def StopContainer (w : World) (containerName : String) : Err × World :=
  let r := cli.ContainerStop w containerName
  match r.1 with
  | some e => (some ("failed to stop container: " ++ e), r.2)
  | none => (none, r.2)

/-- `DockerClient.RemoveContainer`: stop, ignoring the result, then force-remove. -/
def RemoveContainer (w : World) (containerName : String) : Err × World :=
  let w1 := (StopContainer w containerName).2
  let r := cli.ContainerRemove w1 containerName
  match r.1 with
  | some e => (some ("failed to remove container: " ++ e), r.2)
  | none => (none, r.2)

/-- `DockerClient.RemoveVolume`. -/
def RemoveVolume (w : World) (volumeName : String) : Err × World :=
  let r := cli.VolumeRemove w volumeName
  match r.1 with
  | some e => (some ("failed to remove volume: " ++ e), r.2)
  | none => (none, r.2)

/-- The class `\s` of Go's `regexp`: tab, newline, form feed, carriage return, space. -/
def isReSpace (c : Char) : Bool :=
  c.toNat == 9 || c.toNat == 10 || c.toNat == 12 || c.toNat == 13 || c.toNat == 32

/-- The white space `strings.TrimSpace` removes (`unicode.IsSpace`). -/
def isUnicodeSpace (c : Char) : Bool :=
  let n := c.toNat
  (9 ≤ n && n ≤ 13) || n == 32 || n == 0x85 || n == 0xA0 || n == 0x1680 ||
    (0x2000 ≤ n && n ≤ 0x200A) || n == 0x2028 || n == 0x2029 || n == 0x202F ||
    n == 0x205F || n == 0x3000

/-- A match of `generated password:\s+(\S+)` starting at the head of `s`: the
captured group. -/
def passwordAt (s : List Char) : Option (List Char) :=
  let lit := "generated password:".toList
  if lit.isPrefixOf s then
    let rest := s.drop lit.length
    let gap := rest.takeWhile isReSpace
    let tok := (rest.dropWhile isReSpace).takeWhile (fun c => !isReSpace c)
    if !gap.isEmpty && !tok.isEmpty then some tok else none
  else none

/-- The leftmost match of the pattern in `s` (`FindStringSubmatch`). -/
def findPassword : List Char → Option (List Char)
  | [] => none
  | c :: cs =>
    match passwordAt (c :: cs) with
    | some tok => some tok
    | none => findPassword cs

/-- `strings.TrimSpace`. -/
def trimSpace (s : List Char) : List Char :=
  ((s.dropWhile isUnicodeSpace).reverse.dropWhile isUnicodeSpace).reverse

/-- `DockerClient.GetContainerLogs`. -/
def GetContainerLogs (w : World) (containerName : String) : Except String String × World :=
  let r := cli.ContainerLogs w containerName
  match r.1 with
  | .error e => (.error ("failed to get container logs: " ++ e), r.2)
  | .ok logs =>
    let r2 := cli.logsRead r.2 containerName
    match r2.1 with
    | some e => (.error ("failed to read logs: " ++ e), r2.2)
    | none =>
      match findPassword logs.toList with
      | none => (.error "password not found in logs", r2.2)
      | some tok => (.ok (String.mk (trimSpace tok)), r2.2)

/-- `DockerClient.InspectContainer`. -/
def InspectContainer (w : World) (containerName : String) : Except String String × World :=
  let r := cli.ContainerInspect w containerName
  match r.1 with
  | .error e => (.error ("failed to inspect container: " ++ e), r.2)
  | .ok (running, status) =>
    if running then (.ok "running", r.2)
    else if status == "exited" then (.ok "stopped", r.2)
    else (.ok status, r.2)

/-- `DockerClient.ContainerExists`. -/
def ContainerExists (w : World) (containerName : String) : Bool × World :=
  let r := cli.ContainerInspect w containerName
  match r.1 with
  | .error _ => (false, r.2)
  | .ok _ => (true, r.2)

end utils

/-! ## Go's `float64`

A `float64` is a rational with a 53-bit significand.  Conversions and
arithmetic round to the nearest such value, a tie going to the even
significand.  The exponent range is left out: every value met here is an
integer below `2^64` in magnitude or a quotient of two such integers. -/

/-- The integer nearest to `y`, a tie going to the even one. -/
def roundTiesEven (y : ℚ) : ℤ :=
  let f := ⌊y⌋
  if y - f < 1 / 2 then f
  else if 1 / 2 < y - f then f + 1
  else if f % 2 = 0 then f else f + 1

/-- The `float64` nearest to `x`: for `2^e ≤ |x| < 2^(e+1)` the values around
`x` are the multiples of `2^(e-52)`. -/
def toFloat64 (x : ℚ) : ℚ :=
  if x = 0 then 0
  else
    let ulp := (2 : ℚ) ^ (Int.log 2 |x| - 52)
    roundTiesEven (x / ulp) * ulp

/-! ## Package `services`: the lifecycle orchestrator -/

namespace services

/-- `services.TenantService`; the Docker client is the daemon of the world. -/
structure TenantService where
  baseDir : Path

/-- The response value the service builds from a row. -/
def toModel (t : database.Tenant) (status password : String) : models.Tenant :=
  { ID := wrapInt t.ID, Name := t.Name, Port := t.Port, ContainerName := t.ContainerName,
    VolumeName := t.VolumeName, Status := status,
    URL := "http://localhost:" ++ toString t.Port, Username := "admin", Password := password }

/-- `TenantService.CreateTenant`. -/
def CreateTenant (s : TenantService) (w : World) (name : String) :
    Except String models.Tenant × World :=
  let r1 := database.GetTenantByName w name
  match r1.1 with
  | .ok _ => (.error "tenant already exists", r1.2)
  | .error _ =>
    let r2 := database.GetNextAvailablePort r1.2
    match r2.1 with
    | .error e => (.error ("failed to get next available port: " ++ e), r2.2)
    | .ok port =>
      let tenantDir := s.baseDir ++ ["tenants", name]
      let filesPath := tenantDir ++ ["files"]
      let configPath := tenantDir ++ ["config"]
      let r3 := os.MkdirAll r2.2 filesPath
      match r3.1 with
      | some e => (.error ("failed to create files directory: " ++ e), r3.2)
      | none =>
        let r4 := os.MkdirAll r3.2 configPath
        match r4.1 with
        | some e =>
          (.error ("failed to create config directory: " ++ e), (os.RemoveAll r4.2 tenantDir).2)
        | none =>
          let containerName := "files_" ++ name
          let volumeName := name ++ "_settings_vol"
          let r5 := utils.CreateAndStartContainer r4.2 name port filesPath configPath
          match r5.1 with
          | .error e =>
            (.error ("failed to create container: " ++ e), (os.RemoveAll r5.2 tenantDir).2)
          | .ok _ =>
            let r6 := utils.GetContainerLogs r5.2 containerName
            let password := match r6.1 with
              | .ok p => p
              | .error _ => ""
            let dbTenant : database.Tenant :=
              { ID := 0, Name := name, Port := port, ContainerName := containerName,
                VolumeName := volumeName, Status := models.StatusRunning }
            let r7 := database.CreateTenant r6.2 dbTenant
            match r7.1 with
            | .error e =>
              let w8 := (utils.RemoveContainer r7.2 containerName).2
              let w9 := (utils.RemoveVolume w8 volumeName).2
              let w10 := (os.RemoveAll w9 tenantDir).2
              (.error ("failed to save tenant to database: " ++ e), w10)
            | .ok row => (.ok (toModel row models.StatusRunning password), r7.2)

/-- The status block shared by `ListTenants` and `GetTenant`: the status to
report for a row, after inspecting its container when it exists, and the
write-back when the live status differs. -/
def reconcile (w : World) (dbTenant : database.Tenant) : String × World :=
  let r1 := utils.ContainerExists w dbTenant.ContainerName
  if r1.1 then
    let r2 := utils.InspectContainer r1.2 dbTenant.ContainerName
    match r2.1 with
    | .error _ => (dbTenant.Status, r2.2)
    | .ok containerStatus =>
      if containerStatus != dbTenant.Status then
        (containerStatus, (database.UpdateTenantStatus r2.2 dbTenant.Name containerStatus).2)
      else (containerStatus, r2.2)
  else (dbTenant.Status, r1.2)

/-- The `for _, dbTenant := range dbTenants` loop of `ListTenants`. -/
def listLoop (w : World) : List database.Tenant → List models.Tenant × World
  | [] => ([], w)
  | dbTenant :: rest =>
    let r := reconcile w dbTenant
    let out := listLoop r.2 rest
    (toModel dbTenant r.1 "" :: out.1, out.2)

/-- The value of `int(math.Ceil(float64(total) / float64(perPage)))`: both
conversions and the division round to `float64`, `math.Ceil` is exact, and the
conversion back to `int` wraps (the result is at most `2^63`, which amd64
converts to `-2^63`).  `ListTenants` calls it with `perPage ≥ 1` only. -/
def totalPages (total perPage : Int) : Int :=
  wrapInt ⌈toFloat64 (toFloat64 (total : ℚ) / toFloat64 (perPage : ℚ))⌉

/-- `TenantService.ListTenants`. -/
def ListTenants (_s : TenantService) (w : World) (page perPage : Int) :
    Except String (List models.Tenant × models.PaginationMeta) × World :=
  let page := if page < 1 then 1 else page
  let perPage := if perPage < 1 then 10 else perPage
  let r := database.GetAllTenants w page perPage
  match r.1 with
  | .error e => (.error ("failed to get tenants: " ++ e), r.2)
  | .ok (dbTenants, total) =>
    let out := listLoop r.2 dbTenants
    let pagination : models.PaginationMeta :=
      { Total := total, Page := page, PerPage := perPage, MaxPage := totalPages total perPage }
    (.ok (out.1, pagination), out.2)

/-- `TenantService.GetTenant`. -/
def GetTenant (_s : TenantService) (w : World) (name : String) :
    Except String models.Tenant × World :=
  let r1 := database.GetTenantByName w name
  match r1.1 with
  | .error e => (.error ("tenant not found: " ++ e), r1.2)
  | .ok dbTenant =>
    let r2 := reconcile r1.2 dbTenant
    let status := r2.1
    if status == models.StatusRunning then
      let r3 := utils.GetContainerLogs r2.2 dbTenant.ContainerName
      let password := match r3.1 with
        | .ok p => p
        | .error _ => ""
      (.ok (toModel dbTenant status password), r3.2)
    else (.ok (toModel dbTenant status ""), r2.2)

/-- `TenantService.StopTenantContainer`. -/
def StopTenantContainer (_s : TenantService) (w : World) (name : String) : Err × World :=
  let r1 := database.GetTenantByName w name
  match r1.1 with
  | .error e => (some ("tenant not found: " ++ e), r1.2)
  | .ok dbTenant =>
    if dbTenant.Status != models.StatusRunning then (some "container is not running", r1.2)
    else
      let r2 := utils.StopContainer r1.2 dbTenant.ContainerName
      match r2.1 with
      | some e => (some ("failed to stop container: " ++ e), r2.2)
      | none =>
        let r3 := database.UpdateTenantStatus r2.2 name models.StatusStopped
        match r3.1 with
        | some e => (some ("failed to update tenant status: " ++ e), r3.2)
        | none => (none, r3.2)

/-- `TenantService.StartTenantContainer`. -/
def StartTenantContainer (_s : TenantService) (w : World) (name : String) : Err × World :=
  let r1 := database.GetTenantByName w name
  match r1.1 with
  | .error e => (some ("tenant not found: " ++ e), r1.2)
  | .ok dbTenant =>
    if dbTenant.Status == models.StatusRunning then (some "container is already running", r1.2)
    else
      let r2 := utils.StartContainer r1.2 dbTenant.ContainerName
      match r2.1 with
      | some e => (some ("failed to start container: " ++ e), r2.2)
      | none =>
        let r3 := database.UpdateTenantStatus r2.2 name models.StatusRunning
        match r3.1 with
        | some e => (some ("failed to update tenant status: " ++ e), r3.2)
        | none => (none, r3.2)

/-- `TenantService.DeleteTenant`. -/
def DeleteTenant (s : TenantService) (w : World) (name : String) : Err × World :=
  let r1 := database.GetTenantByName w name
  match r1.1 with
  | .error e => (some ("tenant not found: " ++ e), r1.2)
  | .ok dbTenant =>
    let w2 := (utils.RemoveContainer r1.2 dbTenant.ContainerName).2
    let w3 := (utils.RemoveVolume w2 dbTenant.VolumeName).2
    let tenantDir := s.baseDir ++ ["tenants", name]
    let w4 := (os.RemoveAll w3 tenantDir).2
    let r5 := database.DeleteTenant w4 name
    match r5.1 with
    | some e => (some ("failed to delete tenant from database: " ++ e), r5.2)
    | none => (none, r5.2)

end services

/-- The row `CreateTenant` stores for a tenant, once the engine has assigned
the primary key. -/
def services.newRow (id : Nat) (name : String) (port : Int) : database.Tenant :=
  { ID := id, Name := name, Port := port, ContainerName := "files_" ++ name,
    VolumeName := name ++ "_settings_vol", Status := models.StatusRunning }

/-- Sequential `CreateTenant` calls, one per name, each on the world the
previous call left: the results in call order. -/
def services.createAll (s : services.TenantService) :
    World → List String → List (Except String models.Tenant) × World
  | w, [] => ([], w)
  | w, name :: rest =>
    let r := services.CreateTenant s w name
    let out := services.createAll s r.2 rest
    (r.1 :: out.1, out.2)

/-- The port a `CreateTenant` result assigns, if the call succeeded. -/
def services.portOf : Except String models.Tenant → Option Int
  | .ok tenant => some tenant.Port
  | .error _ => none

/-! ## Concrete deployments -/

/-- A service whose base directory is `/srv`. -/
def demoService : services.TenantService := ⟨["srv"]⟩

/-- A daemon that holds the File Browser image and nothing else; every
container prints the start-up banner with a generated password. -/
def demoDaemon : Docker :=
  { containers := [], volumes := [], images := [utils.imageRef],
    output := fun _ => "admin user created, generated password:  s3cret\n" }

/-- An empty deployment in which no external call fails. -/
def demoWorld : World :=
  { store := { rows := [], nextID := 1 }, dirs := [], docker := demoDaemon,
    faults := fun _ => none, trace := [] }

/-- The empty deployment in which exactly the `i`-th external call fails. -/
def demoFailingAt (i : Nat) : World :=
  { demoWorld with faults := fun j => if j = i then some "injected" else none }

/-- A deployment with one stored tenant `acme` on port 9000 whose stored status
and container state are given. -/
def demoTenantWorld (stored : String) (running : Bool) (state : String) : World :=
  { store :=
      { rows := [{ ID := 1, Name := "acme", Port := 9000, ContainerName := "files_acme",
                   VolumeName := "acme_settings_vol", Status := stored }],
        nextID := 2 },
    dirs := [["srv", "tenants", "acme", "files"], ["srv", "tenants", "acme", "config"]],
    docker :=
      { demoDaemon with
        containers := [{ Name := "files_acme", Image := utils.imageRef, HostPort := 9000,
                         FilesPath := ["srv", "tenants", "acme", "files"],
                         Volume := "acme_settings_vol",
                         ConfigPath := ["srv", "tenants", "acme", "config"],
                         Running := running, Status := state }],
        volumes := ["acme_settings_vol"] },
    faults := fun _ => none, trace := [] }

/-- The deployment `demoTenantWorld` in which exactly the external calls whose
index is in `failing` fail. -/
def demoTenantFailingIn (stored : String) (running : Bool) (state : String)
    (failing : List Nat) : World :=
  { demoTenantWorld stored running state with
    faults := fun j => if failing.contains j then some "injected" else none }

/-- The empty deployment after creating `a` and `b` and deleting `b`. -/
def demoAfterDelete : World :=
  (services.DeleteTenant demoService
    (services.CreateTenant demoService
      (services.CreateTenant demoService demoWorld "a").2 "b").2 "b").2

/-- The row of tenant `acme` in `demoTenantWorld`. -/
def demoRow (stored : String) : database.Tenant :=
  { ID := 1, Name := "acme", Port := 9000, ContainerName := "files_acme",
    VolumeName := "acme_settings_vol", Status := stored }

/-- The empty deployment whose daemon holds no image. -/
def demoNoImage : World :=
  { demoWorld with docker := { demoDaemon with images := [] } }

/-- A deployment of `k` stored tenants on consecutive ports, none of which has
a container. -/
def demoCrowd (k : Nat) : World :=
  { demoWorld with
    store :=
      { rows := (List.range k).map
          (fun i => services.newRow (i + 1) ("t" ++ toString i) (9000 + (i : Int))),
        nextID := k + 1 } }

/-! ## Package `handlers`: the substring test on error messages

A Go string is a sequence of bytes; `contains` and `containsMiddle` only take
lengths, slice and compare, so they are written over any alphabet with
decidable equality.  Lengths and indices are Go `int`s far below `2^63`. -/

namespace handlers

/-- The slice expression `s[i:j]` on a string, a sequence of bytes: it panics
(`none`) unless `0 ≤ i ≤ j ≤ len(s)`. -/
def slice {α : Type} (s : List α) (i j : Int) : Option (List α) :=
  if 0 ≤ i ∧ i ≤ j ∧ j ≤ s.length then some ((s.drop i.toNat).take (j - i).toNat) else none

/-- The loop of `containsMiddle` from index `i` on, with `fuel` bounding the
iterations still allowed. -/
def containsMiddleFrom {α : Type} [DecidableEq α] (s substr : List α) : Nat → Int → Option Bool
  | 0, _ => none
  | fuel + 1, i =>
    if i ≤ (s.length : Int) - substr.length then
      match slice s i (i + substr.length) with
      | none => none
      | some t => if t = substr then some true else containsMiddleFrom s substr fuel (i + 1)
    else some false

/-- `containsMiddle`: the loop test is evaluated at most `len(s) + 2` times. -/
def containsMiddle {α : Type} [DecidableEq α] (s substr : List α) : Option Bool :=
  containsMiddleFrom s substr (s.length + 2) 0

/-- `contains`, with the short-circuit evaluation of `&&` and `||`. -/
def contains {α : Type} [DecidableEq α] (s substr : List α) : Option Bool :=
  if ¬ ((s.length : Int) ≥ substr.length) then some false
  else if s = substr then some true
  else if ¬ ((s.length : Int) > substr.length) then some false
  else
    match slice s 0 substr.length with
    | none => none
    | some head =>
      if head = substr then some true
      else
        match slice s ((s.length : Int) - substr.length) s.length with
        | none => none
        | some tail =>
          if tail = substr then some true
          else if ¬ ((s.length : Int) > substr.length + 1) then some false
          else containsMiddle s substr

end handlers

/-- The part of `CreateTenant` before the Store insert (lines 27 to 63):
`some (port, w')` when the lookup returned no tenant, a port was allocated,
both directories were made and the container was created and started; `w'` is
the state after the log read, in which the insert is issued. -/
def services.beforeInsert (s : services.TenantService) (w : World) (name : String) :
    Option (Int × World) :=
  let r1 := database.GetTenantByName w name
  match r1.1 with
  | .ok _ => none
  | .error _ =>
    let r2 := database.GetNextAvailablePort r1.2
    match r2.1 with
    | .error _ => none
    | .ok port =>
      let tenantDir := s.baseDir ++ ["tenants", name]
      let r3 := os.MkdirAll r2.2 (tenantDir ++ ["files"])
      match r3.1 with
      | some _ => none
      | none =>
        let r4 := os.MkdirAll r3.2 (tenantDir ++ ["config"])
        match r4.1 with
        | some _ => none
        | none =>
          let r5 := utils.CreateAndStartContainer r4.2 name port (tenantDir ++ ["files"])
            (tenantDir ++ ["config"])
          match r5.1 with
          | .error _ => none
          | .ok _ => some (port, (utils.GetContainerLogs r5.2 ("files_" ++ name)).2)

/-- A deployment whose Store holds tenant `acme` with its volume and directories
but whose container is gone; the external calls whose index is in `failing`
fail. -/
def demoOrphanRecord (failing : List Nat) : World :=
  { demoTenantFailingIn "running" true "running" failing with
    docker := { demoDaemon with volumes := ["acme_settings_vol"] } }

/-- The state in which `CreateTenant demoService (demoFailingAt 13) "acme"`
issues its insert. -/
def demoAtInsert : World :=
  ((services.beforeInsert demoService (demoFailingAt 13) "acme").map Prod.snd).getD demoWorld

/-- Whether a `(T, error)` result has a nil error. -/
@[simp] def succeeded {α : Type} : Except String α → Bool
  | .ok _ => true
  | .error _ => false

/-! # Theorems

## Frame lemmas of the external calls

Each external call appends one event to the trace and can change at most one
of the three systems. -/

set_option linter.unnecessarySeqFocus false
set_option linter.unusedTactic false
set_option linter.unreachableTactic false

@[simp] theorem emit_trace (w : World) (c : Call) (b : Bool) :
    (w.emit c b).trace = w.trace ++ [⟨c, b⟩] := rfl

@[simp] theorem emit_store (w : World) (c : Call) (b : Bool) : (w.emit c b).store = w.store := rfl

@[simp] theorem emit_dirs (w : World) (c : Call) (b : Bool) : (w.emit c b).dirs = w.dirs := rfl

@[simp] theorem emit_docker (w : World) (c : Call) (b : Bool) :
    (w.emit c b).docker = w.docker := rfl

@[simp] theorem emit_faults (w : World) (c : Call) (b : Bool) :
    (w.emit c b).faults = w.faults := rfl

@[simp] theorem dbCreate_trace (w : World) (t : database.Tenant) :
    (database.CreateTenant w t).2.trace = w.trace ++ [⟨Call.dbCreate t.Name t.Port, succeeded (database.CreateTenant w t).1⟩] := by
  unfold database.CreateTenant
  cases w.fault <;> simp only [] <;> (repeat' split) <;> simp_all [cli.setDocker, cli.updateContainer]

@[simp] theorem dbCreate_faults (w : World) (t : database.Tenant) :
    (database.CreateTenant w t).2.faults = w.faults := by
  unfold database.CreateTenant
  cases w.fault <;> simp only [] <;> (repeat' split) <;> simp_all [cli.setDocker, cli.updateContainer]

@[simp] theorem dbCreate_dirs (w : World) (t : database.Tenant) :
    (database.CreateTenant w t).2.dirs = w.dirs := by
  unfold database.CreateTenant
  cases w.fault <;> simp only [] <;> (repeat' split) <;> simp_all [cli.setDocker, cli.updateContainer]

@[simp] theorem dbCreate_docker (w : World) (t : database.Tenant) :
    (database.CreateTenant w t).2.docker = w.docker := by
  unfold database.CreateTenant
  cases w.fault <;> simp only [] <;> (repeat' split) <;> simp_all [cli.setDocker, cli.updateContainer]

@[simp] theorem dbGetByName_trace (w : World) (name : String) :
    (database.GetTenantByName w name).2.trace = w.trace ++ [⟨Call.dbGetByName name, succeeded (database.GetTenantByName w name).1⟩] := by
  unfold database.GetTenantByName
  cases w.fault <;> simp only [] <;> (repeat' split) <;> simp_all [cli.setDocker, cli.updateContainer]

@[simp] theorem dbGetByName_faults (w : World) (name : String) :
    (database.GetTenantByName w name).2.faults = w.faults := by
  unfold database.GetTenantByName
  cases w.fault <;> simp only [] <;> (repeat' split) <;> simp_all [cli.setDocker, cli.updateContainer]

@[simp] theorem dbGetByName_store (w : World) (name : String) :
    (database.GetTenantByName w name).2.store = w.store := by
  unfold database.GetTenantByName
  cases w.fault <;> simp only [] <;> (repeat' split) <;> simp_all [cli.setDocker, cli.updateContainer]

@[simp] theorem dbGetByName_dirs (w : World) (name : String) :
    (database.GetTenantByName w name).2.dirs = w.dirs := by
  unfold database.GetTenantByName
  cases w.fault <;> simp only [] <;> (repeat' split) <;> simp_all [cli.setDocker, cli.updateContainer]

@[simp] theorem dbGetByName_docker (w : World) (name : String) :
    (database.GetTenantByName w name).2.docker = w.docker := by
  unfold database.GetTenantByName
  cases w.fault <;> simp only [] <;> (repeat' split) <;> simp_all [cli.setDocker, cli.updateContainer]

@[simp] theorem dbUpdateStatus_trace (w : World) (name status : String) :
    (database.UpdateTenantStatus w name status).2.trace = w.trace ++ [⟨Call.dbUpdateStatus name status, (database.UpdateTenantStatus w name status).1.isNone⟩] := by
  unfold database.UpdateTenantStatus
  cases w.fault <;> simp only [] <;> (repeat' split) <;> simp_all [cli.setDocker, cli.updateContainer]

@[simp] theorem dbUpdateStatus_faults (w : World) (name status : String) :
    (database.UpdateTenantStatus w name status).2.faults = w.faults := by
  unfold database.UpdateTenantStatus
  cases w.fault <;> simp only [] <;> (repeat' split) <;> simp_all [cli.setDocker, cli.updateContainer]

@[simp] theorem dbUpdateStatus_dirs (w : World) (name status : String) :
    (database.UpdateTenantStatus w name status).2.dirs = w.dirs := by
  unfold database.UpdateTenantStatus
  cases w.fault <;> simp only [] <;> (repeat' split) <;> simp_all [cli.setDocker, cli.updateContainer]

@[simp] theorem dbUpdateStatus_docker (w : World) (name status : String) :
    (database.UpdateTenantStatus w name status).2.docker = w.docker := by
  unfold database.UpdateTenantStatus
  cases w.fault <;> simp only [] <;> (repeat' split) <;> simp_all [cli.setDocker, cli.updateContainer]

@[simp] theorem dbDelete_trace (w : World) (name : String) :
    (database.DeleteTenant w name).2.trace = w.trace ++ [⟨Call.dbDelete name, (database.DeleteTenant w name).1.isNone⟩] := by
  unfold database.DeleteTenant
  cases w.fault <;> simp only [] <;> (repeat' split) <;> simp_all [cli.setDocker, cli.updateContainer]

@[simp] theorem dbDelete_faults (w : World) (name : String) :
    (database.DeleteTenant w name).2.faults = w.faults := by
  unfold database.DeleteTenant
  cases w.fault <;> simp only [] <;> (repeat' split) <;> simp_all [cli.setDocker, cli.updateContainer]

@[simp] theorem dbDelete_dirs (w : World) (name : String) :
    (database.DeleteTenant w name).2.dirs = w.dirs := by
  unfold database.DeleteTenant
  cases w.fault <;> simp only [] <;> (repeat' split) <;> simp_all [cli.setDocker, cli.updateContainer]

@[simp] theorem dbDelete_docker (w : World) (name : String) :
    (database.DeleteTenant w name).2.docker = w.docker := by
  unfold database.DeleteTenant
  cases w.fault <;> simp only [] <;> (repeat' split) <;> simp_all [cli.setDocker, cli.updateContainer]

@[simp] theorem dbMaxPort_trace (w : World) :
    (database.GetNextAvailablePort w).2.trace = w.trace ++ [⟨Call.dbMaxPort, succeeded (database.GetNextAvailablePort w).1⟩] := by
  unfold database.GetNextAvailablePort
  cases w.fault <;> simp only [] <;> (repeat' split) <;> simp_all [cli.setDocker, cli.updateContainer]

@[simp] theorem dbMaxPort_faults (w : World) :
    (database.GetNextAvailablePort w).2.faults = w.faults := by
  unfold database.GetNextAvailablePort
  cases w.fault <;> simp only [] <;> (repeat' split) <;> simp_all [cli.setDocker, cli.updateContainer]

@[simp] theorem dbMaxPort_store (w : World) :
    (database.GetNextAvailablePort w).2.store = w.store := by
  unfold database.GetNextAvailablePort
  cases w.fault <;> simp only [] <;> (repeat' split) <;> simp_all [cli.setDocker, cli.updateContainer]

@[simp] theorem dbMaxPort_dirs (w : World) :
    (database.GetNextAvailablePort w).2.dirs = w.dirs := by
  unfold database.GetNextAvailablePort
  cases w.fault <;> simp only [] <;> (repeat' split) <;> simp_all [cli.setDocker, cli.updateContainer]

@[simp] theorem dbMaxPort_docker (w : World) :
    (database.GetNextAvailablePort w).2.docker = w.docker := by
  unfold database.GetNextAvailablePort
  cases w.fault <;> simp only [] <;> (repeat' split) <;> simp_all [cli.setDocker, cli.updateContainer]

@[simp] theorem mkdirAll_trace (w : World) (p : Path) :
    (os.MkdirAll w p).2.trace = w.trace ++ [⟨Call.mkdirAll p, (os.MkdirAll w p).1.isNone⟩] := by
  unfold os.MkdirAll
  cases w.fault <;> simp only [] <;> (repeat' split) <;> simp_all [cli.setDocker, cli.updateContainer]

@[simp] theorem mkdirAll_faults (w : World) (p : Path) :
    (os.MkdirAll w p).2.faults = w.faults := by
  unfold os.MkdirAll
  cases w.fault <;> simp only [] <;> (repeat' split) <;> simp_all [cli.setDocker, cli.updateContainer]

@[simp] theorem mkdirAll_store (w : World) (p : Path) :
    (os.MkdirAll w p).2.store = w.store := by
  unfold os.MkdirAll
  cases w.fault <;> simp only [] <;> (repeat' split) <;> simp_all [cli.setDocker, cli.updateContainer]

@[simp] theorem mkdirAll_docker (w : World) (p : Path) :
    (os.MkdirAll w p).2.docker = w.docker := by
  unfold os.MkdirAll
  cases w.fault <;> simp only [] <;> (repeat' split) <;> simp_all [cli.setDocker, cli.updateContainer]

@[simp] theorem removeAll_trace (w : World) (p : Path) :
    (os.RemoveAll w p).2.trace = w.trace ++ [⟨Call.removeAll p, (os.RemoveAll w p).1.isNone⟩] := by
  unfold os.RemoveAll
  cases w.fault <;> simp only [] <;> (repeat' split) <;> simp_all [cli.setDocker, cli.updateContainer]

@[simp] theorem removeAll_faults (w : World) (p : Path) :
    (os.RemoveAll w p).2.faults = w.faults := by
  unfold os.RemoveAll
  cases w.fault <;> simp only [] <;> (repeat' split) <;> simp_all [cli.setDocker, cli.updateContainer]

@[simp] theorem removeAll_store (w : World) (p : Path) :
    (os.RemoveAll w p).2.store = w.store := by
  unfold os.RemoveAll
  cases w.fault <;> simp only [] <;> (repeat' split) <;> simp_all [cli.setDocker, cli.updateContainer]

@[simp] theorem removeAll_docker (w : World) (p : Path) :
    (os.RemoveAll w p).2.docker = w.docker := by
  unfold os.RemoveAll
  cases w.fault <;> simp only [] <;> (repeat' split) <;> simp_all [cli.setDocker, cli.updateContainer]

@[simp] theorem volumeList_trace (w : World) :
    (cli.VolumeList w).2.trace = w.trace ++ [⟨Call.volumeList, succeeded (cli.VolumeList w).1⟩] := by
  unfold cli.VolumeList
  cases w.fault <;> simp only [] <;> (repeat' split) <;> simp_all [cli.setDocker, cli.updateContainer]

@[simp] theorem volumeList_faults (w : World) :
    (cli.VolumeList w).2.faults = w.faults := by
  unfold cli.VolumeList
  cases w.fault <;> simp only [] <;> (repeat' split) <;> simp_all [cli.setDocker, cli.updateContainer]

@[simp] theorem volumeList_store (w : World) :
    (cli.VolumeList w).2.store = w.store := by
  unfold cli.VolumeList
  cases w.fault <;> simp only [] <;> (repeat' split) <;> simp_all [cli.setDocker, cli.updateContainer]

@[simp] theorem volumeList_dirs (w : World) :
    (cli.VolumeList w).2.dirs = w.dirs := by
  unfold cli.VolumeList
  cases w.fault <;> simp only [] <;> (repeat' split) <;> simp_all [cli.setDocker, cli.updateContainer]

@[simp] theorem volumeList_docker (w : World) :
    (cli.VolumeList w).2.docker = w.docker := by
  unfold cli.VolumeList
  cases w.fault <;> simp only [] <;> (repeat' split) <;> simp_all [cli.setDocker, cli.updateContainer]

@[simp] theorem volumeCreate_trace (w : World) (name : String) :
    (cli.VolumeCreate w name).2.trace = w.trace ++ [⟨Call.volumeCreate name, (cli.VolumeCreate w name).1.isNone⟩] := by
  unfold cli.VolumeCreate
  cases w.fault <;> simp only [] <;> (repeat' split) <;> simp_all [cli.setDocker, cli.updateContainer]

@[simp] theorem volumeCreate_faults (w : World) (name : String) :
    (cli.VolumeCreate w name).2.faults = w.faults := by
  unfold cli.VolumeCreate
  cases w.fault <;> simp only [] <;> (repeat' split) <;> simp_all [cli.setDocker, cli.updateContainer]

@[simp] theorem volumeCreate_store (w : World) (name : String) :
    (cli.VolumeCreate w name).2.store = w.store := by
  unfold cli.VolumeCreate
  cases w.fault <;> simp only [] <;> (repeat' split) <;> simp_all [cli.setDocker, cli.updateContainer]

@[simp] theorem volumeCreate_dirs (w : World) (name : String) :
    (cli.VolumeCreate w name).2.dirs = w.dirs := by
  unfold cli.VolumeCreate
  cases w.fault <;> simp only [] <;> (repeat' split) <;> simp_all [cli.setDocker, cli.updateContainer]

@[simp] theorem volumeRemove_trace (w : World) (name : String) :
    (cli.VolumeRemove w name).2.trace = w.trace ++ [⟨Call.volumeRemove name, (cli.VolumeRemove w name).1.isNone⟩] := by
  unfold cli.VolumeRemove
  cases w.fault <;> simp only [] <;> (repeat' split) <;> simp_all [cli.setDocker, cli.updateContainer]

@[simp] theorem volumeRemove_faults (w : World) (name : String) :
    (cli.VolumeRemove w name).2.faults = w.faults := by
  unfold cli.VolumeRemove
  cases w.fault <;> simp only [] <;> (repeat' split) <;> simp_all [cli.setDocker, cli.updateContainer]

@[simp] theorem volumeRemove_store (w : World) (name : String) :
    (cli.VolumeRemove w name).2.store = w.store := by
  unfold cli.VolumeRemove
  cases w.fault <;> simp only [] <;> (repeat' split) <;> simp_all [cli.setDocker, cli.updateContainer]

@[simp] theorem volumeRemove_dirs (w : World) (name : String) :
    (cli.VolumeRemove w name).2.dirs = w.dirs := by
  unfold cli.VolumeRemove
  cases w.fault <;> simp only [] <;> (repeat' split) <;> simp_all [cli.setDocker, cli.updateContainer]

@[simp] theorem imageInspect_trace (w : World) (ref : String) :
    (cli.ImageInspect w ref).2.trace = w.trace ++ [⟨Call.imageInspect ref, (cli.ImageInspect w ref).1.isNone⟩] := by
  unfold cli.ImageInspect
  cases w.fault <;> simp only [] <;> (repeat' split) <;> simp_all [cli.setDocker, cli.updateContainer]

@[simp] theorem imageInspect_faults (w : World) (ref : String) :
    (cli.ImageInspect w ref).2.faults = w.faults := by
  unfold cli.ImageInspect
  cases w.fault <;> simp only [] <;> (repeat' split) <;> simp_all [cli.setDocker, cli.updateContainer]

@[simp] theorem imageInspect_store (w : World) (ref : String) :
    (cli.ImageInspect w ref).2.store = w.store := by
  unfold cli.ImageInspect
  cases w.fault <;> simp only [] <;> (repeat' split) <;> simp_all [cli.setDocker, cli.updateContainer]

@[simp] theorem imageInspect_dirs (w : World) (ref : String) :
    (cli.ImageInspect w ref).2.dirs = w.dirs := by
  unfold cli.ImageInspect
  cases w.fault <;> simp only [] <;> (repeat' split) <;> simp_all [cli.setDocker, cli.updateContainer]

@[simp] theorem imageInspect_docker (w : World) (ref : String) :
    (cli.ImageInspect w ref).2.docker = w.docker := by
  unfold cli.ImageInspect
  cases w.fault <;> simp only [] <;> (repeat' split) <;> simp_all [cli.setDocker, cli.updateContainer]

@[simp] theorem imagePull_trace (w : World) (ref : String) :
    (cli.ImagePull w ref).2.trace = w.trace ++ [⟨Call.imagePull ref, (cli.ImagePull w ref).1.isNone⟩] := by
  unfold cli.ImagePull
  cases w.fault <;> simp only [] <;> (repeat' split) <;> simp_all [cli.setDocker, cli.updateContainer]

@[simp] theorem imagePull_faults (w : World) (ref : String) :
    (cli.ImagePull w ref).2.faults = w.faults := by
  unfold cli.ImagePull
  cases w.fault <;> simp only [] <;> (repeat' split) <;> simp_all [cli.setDocker, cli.updateContainer]

@[simp] theorem imagePull_store (w : World) (ref : String) :
    (cli.ImagePull w ref).2.store = w.store := by
  unfold cli.ImagePull
  cases w.fault <;> simp only [] <;> (repeat' split) <;> simp_all [cli.setDocker, cli.updateContainer]

@[simp] theorem imagePull_dirs (w : World) (ref : String) :
    (cli.ImagePull w ref).2.dirs = w.dirs := by
  unfold cli.ImagePull
  cases w.fault <;> simp only [] <;> (repeat' split) <;> simp_all [cli.setDocker, cli.updateContainer]

@[simp] theorem pullRead_trace (w : World) (ref : String) :
    (cli.pullRead w ref).2.trace = w.trace ++ [⟨Call.pullRead ref, (cli.pullRead w ref).1.isNone⟩] := by
  unfold cli.pullRead
  cases w.fault <;> simp only [] <;> (repeat' split) <;> simp_all [cli.setDocker, cli.updateContainer]

@[simp] theorem pullRead_faults (w : World) (ref : String) :
    (cli.pullRead w ref).2.faults = w.faults := by
  unfold cli.pullRead
  cases w.fault <;> simp only [] <;> (repeat' split) <;> simp_all [cli.setDocker, cli.updateContainer]

@[simp] theorem pullRead_store (w : World) (ref : String) :
    (cli.pullRead w ref).2.store = w.store := by
  unfold cli.pullRead
  cases w.fault <;> simp only [] <;> (repeat' split) <;> simp_all [cli.setDocker, cli.updateContainer]

@[simp] theorem pullRead_dirs (w : World) (ref : String) :
    (cli.pullRead w ref).2.dirs = w.dirs := by
  unfold cli.pullRead
  cases w.fault <;> simp only [] <;> (repeat' split) <;> simp_all [cli.setDocker, cli.updateContainer]

@[simp] theorem pullRead_docker (w : World) (ref : String) :
    (cli.pullRead w ref).2.docker = w.docker := by
  unfold cli.pullRead
  cases w.fault <;> simp only [] <;> (repeat' split) <;> simp_all [cli.setDocker, cli.updateContainer]

@[simp] theorem containerCreate_trace (w : World) (image : String) (hostPort : Int) (filesPath : Path) (volume : String) (configPath : Path) (name : String) :
    (cli.ContainerCreate w image hostPort filesPath volume configPath name).2.trace = w.trace ++ [⟨Call.containerCreate name, succeeded (cli.ContainerCreate w image hostPort filesPath volume configPath name).1⟩] := by
  unfold cli.ContainerCreate
  cases w.fault <;> simp only [] <;> (repeat' split) <;> simp_all [cli.setDocker, cli.updateContainer]

@[simp] theorem containerCreate_faults (w : World) (image : String) (hostPort : Int) (filesPath : Path) (volume : String) (configPath : Path) (name : String) :
    (cli.ContainerCreate w image hostPort filesPath volume configPath name).2.faults = w.faults := by
  unfold cli.ContainerCreate
  cases w.fault <;> simp only [] <;> (repeat' split) <;> simp_all [cli.setDocker, cli.updateContainer]

@[simp] theorem containerCreate_store (w : World) (image : String) (hostPort : Int) (filesPath : Path) (volume : String) (configPath : Path) (name : String) :
    (cli.ContainerCreate w image hostPort filesPath volume configPath name).2.store = w.store := by
  unfold cli.ContainerCreate
  cases w.fault <;> simp only [] <;> (repeat' split) <;> simp_all [cli.setDocker, cli.updateContainer]

@[simp] theorem containerCreate_dirs (w : World) (image : String) (hostPort : Int) (filesPath : Path) (volume : String) (configPath : Path) (name : String) :
    (cli.ContainerCreate w image hostPort filesPath volume configPath name).2.dirs = w.dirs := by
  unfold cli.ContainerCreate
  cases w.fault <;> simp only [] <;> (repeat' split) <;> simp_all [cli.setDocker, cli.updateContainer]

@[simp] theorem containerStart_trace (w : World) (name : String) :
    (cli.ContainerStart w name).2.trace = w.trace ++ [⟨Call.containerStart name, (cli.ContainerStart w name).1.isNone⟩] := by
  unfold cli.ContainerStart
  cases w.fault <;> simp only [] <;> (repeat' split) <;> simp_all [cli.setDocker, cli.updateContainer]

@[simp] theorem containerStart_faults (w : World) (name : String) :
    (cli.ContainerStart w name).2.faults = w.faults := by
  unfold cli.ContainerStart
  cases w.fault <;> simp only [] <;> (repeat' split) <;> simp_all [cli.setDocker, cli.updateContainer]

@[simp] theorem containerStart_store (w : World) (name : String) :
    (cli.ContainerStart w name).2.store = w.store := by
  unfold cli.ContainerStart
  cases w.fault <;> simp only [] <;> (repeat' split) <;> simp_all [cli.setDocker, cli.updateContainer]

@[simp] theorem containerStart_dirs (w : World) (name : String) :
    (cli.ContainerStart w name).2.dirs = w.dirs := by
  unfold cli.ContainerStart
  cases w.fault <;> simp only [] <;> (repeat' split) <;> simp_all [cli.setDocker, cli.updateContainer]

@[simp] theorem containerStop_trace (w : World) (name : String) :
    (cli.ContainerStop w name).2.trace = w.trace ++ [⟨Call.containerStop name, (cli.ContainerStop w name).1.isNone⟩] := by
  unfold cli.ContainerStop
  cases w.fault <;> simp only [] <;> (repeat' split) <;> simp_all [cli.setDocker, cli.updateContainer]

@[simp] theorem containerStop_faults (w : World) (name : String) :
    (cli.ContainerStop w name).2.faults = w.faults := by
  unfold cli.ContainerStop
  cases w.fault <;> simp only [] <;> (repeat' split) <;> simp_all [cli.setDocker, cli.updateContainer]

@[simp] theorem containerStop_store (w : World) (name : String) :
    (cli.ContainerStop w name).2.store = w.store := by
  unfold cli.ContainerStop
  cases w.fault <;> simp only [] <;> (repeat' split) <;> simp_all [cli.setDocker, cli.updateContainer]

@[simp] theorem containerStop_dirs (w : World) (name : String) :
    (cli.ContainerStop w name).2.dirs = w.dirs := by
  unfold cli.ContainerStop
  cases w.fault <;> simp only [] <;> (repeat' split) <;> simp_all [cli.setDocker, cli.updateContainer]

@[simp] theorem containerRemove_trace (w : World) (name : String) :
    (cli.ContainerRemove w name).2.trace = w.trace ++ [⟨Call.containerRemove name, (cli.ContainerRemove w name).1.isNone⟩] := by
  unfold cli.ContainerRemove
  cases w.fault <;> simp only [] <;> (repeat' split) <;> simp_all [cli.setDocker, cli.updateContainer]

@[simp] theorem containerRemove_faults (w : World) (name : String) :
    (cli.ContainerRemove w name).2.faults = w.faults := by
  unfold cli.ContainerRemove
  cases w.fault <;> simp only [] <;> (repeat' split) <;> simp_all [cli.setDocker, cli.updateContainer]

@[simp] theorem containerRemove_store (w : World) (name : String) :
    (cli.ContainerRemove w name).2.store = w.store := by
  unfold cli.ContainerRemove
  cases w.fault <;> simp only [] <;> (repeat' split) <;> simp_all [cli.setDocker, cli.updateContainer]

@[simp] theorem containerRemove_dirs (w : World) (name : String) :
    (cli.ContainerRemove w name).2.dirs = w.dirs := by
  unfold cli.ContainerRemove
  cases w.fault <;> simp only [] <;> (repeat' split) <;> simp_all [cli.setDocker, cli.updateContainer]

@[simp] theorem containerInspect_trace (w : World) (name : String) :
    (cli.ContainerInspect w name).2.trace = w.trace ++ [⟨Call.containerInspect name, succeeded (cli.ContainerInspect w name).1⟩] := by
  unfold cli.ContainerInspect
  cases w.fault <;> simp only [] <;> (repeat' split) <;> simp_all [cli.setDocker, cli.updateContainer]

@[simp] theorem containerInspect_faults (w : World) (name : String) :
    (cli.ContainerInspect w name).2.faults = w.faults := by
  unfold cli.ContainerInspect
  cases w.fault <;> simp only [] <;> (repeat' split) <;> simp_all [cli.setDocker, cli.updateContainer]

@[simp] theorem containerInspect_store (w : World) (name : String) :
    (cli.ContainerInspect w name).2.store = w.store := by
  unfold cli.ContainerInspect
  cases w.fault <;> simp only [] <;> (repeat' split) <;> simp_all [cli.setDocker, cli.updateContainer]

@[simp] theorem containerInspect_dirs (w : World) (name : String) :
    (cli.ContainerInspect w name).2.dirs = w.dirs := by
  unfold cli.ContainerInspect
  cases w.fault <;> simp only [] <;> (repeat' split) <;> simp_all [cli.setDocker, cli.updateContainer]

@[simp] theorem containerInspect_docker (w : World) (name : String) :
    (cli.ContainerInspect w name).2.docker = w.docker := by
  unfold cli.ContainerInspect
  cases w.fault <;> simp only [] <;> (repeat' split) <;> simp_all [cli.setDocker, cli.updateContainer]

@[simp] theorem containerLogs_trace (w : World) (name : String) :
    (cli.ContainerLogs w name).2.trace = w.trace ++ [⟨Call.containerLogs name, succeeded (cli.ContainerLogs w name).1⟩] := by
  unfold cli.ContainerLogs
  cases w.fault <;> simp only [] <;> (repeat' split) <;> simp_all [cli.setDocker, cli.updateContainer]

@[simp] theorem containerLogs_faults (w : World) (name : String) :
    (cli.ContainerLogs w name).2.faults = w.faults := by
  unfold cli.ContainerLogs
  cases w.fault <;> simp only [] <;> (repeat' split) <;> simp_all [cli.setDocker, cli.updateContainer]

@[simp] theorem containerLogs_store (w : World) (name : String) :
    (cli.ContainerLogs w name).2.store = w.store := by
  unfold cli.ContainerLogs
  cases w.fault <;> simp only [] <;> (repeat' split) <;> simp_all [cli.setDocker, cli.updateContainer]

@[simp] theorem containerLogs_dirs (w : World) (name : String) :
    (cli.ContainerLogs w name).2.dirs = w.dirs := by
  unfold cli.ContainerLogs
  cases w.fault <;> simp only [] <;> (repeat' split) <;> simp_all [cli.setDocker, cli.updateContainer]

@[simp] theorem containerLogs_docker (w : World) (name : String) :
    (cli.ContainerLogs w name).2.docker = w.docker := by
  unfold cli.ContainerLogs
  cases w.fault <;> simp only [] <;> (repeat' split) <;> simp_all [cli.setDocker, cli.updateContainer]

@[simp] theorem logsRead_trace (w : World) (name : String) :
    (cli.logsRead w name).2.trace = w.trace ++ [⟨Call.logsRead name, (cli.logsRead w name).1.isNone⟩] := by
  unfold cli.logsRead
  cases w.fault <;> simp only [] <;> (repeat' split) <;> simp_all [cli.setDocker, cli.updateContainer]

@[simp] theorem logsRead_faults (w : World) (name : String) :
    (cli.logsRead w name).2.faults = w.faults := by
  unfold cli.logsRead
  cases w.fault <;> simp only [] <;> (repeat' split) <;> simp_all [cli.setDocker, cli.updateContainer]

@[simp] theorem logsRead_store (w : World) (name : String) :
    (cli.logsRead w name).2.store = w.store := by
  unfold cli.logsRead
  cases w.fault <;> simp only [] <;> (repeat' split) <;> simp_all [cli.setDocker, cli.updateContainer]

@[simp] theorem logsRead_dirs (w : World) (name : String) :
    (cli.logsRead w name).2.dirs = w.dirs := by
  unfold cli.logsRead
  cases w.fault <;> simp only [] <;> (repeat' split) <;> simp_all [cli.setDocker, cli.updateContainer]

@[simp] theorem logsRead_docker (w : World) (name : String) :
    (cli.logsRead w name).2.docker = w.docker := by
  unfold cli.logsRead
  cases w.fault <;> simp only [] <;> (repeat' split) <;> simp_all [cli.setDocker, cli.updateContainer]

@[simp] theorem createVolume_store (w : World) (v : String) :
    (utils.createVolume w v).2.store = w.store := by
  simp only [utils.createVolume]
  repeat' split
  all_goals simp [*]

@[simp] theorem createVolume_dirs (w : World) (v : String) :
    (utils.createVolume w v).2.dirs = w.dirs := by
  simp only [utils.createVolume]
  repeat' split
  all_goals simp [*]

@[simp] theorem createVolume_faults (w : World) (v : String) :
    (utils.createVolume w v).2.faults = w.faults := by
  simp only [utils.createVolume]
  repeat' split
  all_goals simp [*]

@[simp] theorem ensureImage_store (w : World) (ref : String) :
    (utils.ensureImage w ref).2.store = w.store := by
  simp only [utils.ensureImage]
  repeat' split
  all_goals simp [*]

@[simp] theorem ensureImage_dirs (w : World) (ref : String) :
    (utils.ensureImage w ref).2.dirs = w.dirs := by
  simp only [utils.ensureImage]
  repeat' split
  all_goals simp [*]

@[simp] theorem ensureImage_faults (w : World) (ref : String) :
    (utils.ensureImage w ref).2.faults = w.faults := by
  simp only [utils.ensureImage]
  repeat' split
  all_goals simp [*]

@[simp] theorem CreateAndStartContainer_store (w : World) (n : String) (port : Int) (fp cp : Path) :
    (utils.CreateAndStartContainer w n port fp cp).2.store = w.store := by
  simp only [utils.CreateAndStartContainer]
  repeat' split
  all_goals simp [*]

@[simp] theorem CreateAndStartContainer_dirs (w : World) (n : String) (port : Int) (fp cp : Path) :
    (utils.CreateAndStartContainer w n port fp cp).2.dirs = w.dirs := by
  simp only [utils.CreateAndStartContainer]
  repeat' split
  all_goals simp [*]

@[simp] theorem CreateAndStartContainer_faults (w : World) (n : String) (port : Int) (fp cp : Path) :
    (utils.CreateAndStartContainer w n port fp cp).2.faults = w.faults := by
  simp only [utils.CreateAndStartContainer]
  repeat' split
  all_goals simp [*]

@[simp] theorem StartContainer_store (w : World) (n : String) :
    (utils.StartContainer w n).2.store = w.store := by
  simp only [utils.StartContainer]
  repeat' split
  all_goals simp [*]

@[simp] theorem StartContainer_dirs (w : World) (n : String) :
    (utils.StartContainer w n).2.dirs = w.dirs := by
  simp only [utils.StartContainer]
  repeat' split
  all_goals simp [*]

@[simp] theorem StartContainer_faults (w : World) (n : String) :
    (utils.StartContainer w n).2.faults = w.faults := by
  simp only [utils.StartContainer]
  repeat' split
  all_goals simp [*]

@[simp] theorem StopContainer_store (w : World) (n : String) :
    (utils.StopContainer w n).2.store = w.store := by
  simp only [utils.StopContainer]
  repeat' split
  all_goals simp [*]

@[simp] theorem StopContainer_dirs (w : World) (n : String) :
    (utils.StopContainer w n).2.dirs = w.dirs := by
  simp only [utils.StopContainer]
  repeat' split
  all_goals simp [*]

@[simp] theorem StopContainer_faults (w : World) (n : String) :
    (utils.StopContainer w n).2.faults = w.faults := by
  simp only [utils.StopContainer]
  repeat' split
  all_goals simp [*]

@[simp] theorem RemoveContainer_store (w : World) (n : String) :
    (utils.RemoveContainer w n).2.store = w.store := by
  simp only [utils.RemoveContainer]
  repeat' split
  all_goals simp [*]

@[simp] theorem RemoveContainer_dirs (w : World) (n : String) :
    (utils.RemoveContainer w n).2.dirs = w.dirs := by
  simp only [utils.RemoveContainer]
  repeat' split
  all_goals simp [*]

@[simp] theorem RemoveContainer_faults (w : World) (n : String) :
    (utils.RemoveContainer w n).2.faults = w.faults := by
  simp only [utils.RemoveContainer]
  repeat' split
  all_goals simp [*]

@[simp] theorem RemoveVolume_store (w : World) (v : String) :
    (utils.RemoveVolume w v).2.store = w.store := by
  simp only [utils.RemoveVolume]
  repeat' split
  all_goals simp [*]

@[simp] theorem RemoveVolume_dirs (w : World) (v : String) :
    (utils.RemoveVolume w v).2.dirs = w.dirs := by
  simp only [utils.RemoveVolume]
  repeat' split
  all_goals simp [*]

@[simp] theorem RemoveVolume_faults (w : World) (v : String) :
    (utils.RemoveVolume w v).2.faults = w.faults := by
  simp only [utils.RemoveVolume]
  repeat' split
  all_goals simp [*]

@[simp] theorem GetContainerLogs_store (w : World) (n : String) :
    (utils.GetContainerLogs w n).2.store = w.store := by
  simp only [utils.GetContainerLogs]
  repeat' split
  all_goals simp [*]

@[simp] theorem GetContainerLogs_dirs (w : World) (n : String) :
    (utils.GetContainerLogs w n).2.dirs = w.dirs := by
  simp only [utils.GetContainerLogs]
  repeat' split
  all_goals simp [*]

@[simp] theorem GetContainerLogs_faults (w : World) (n : String) :
    (utils.GetContainerLogs w n).2.faults = w.faults := by
  simp only [utils.GetContainerLogs]
  repeat' split
  all_goals simp [*]

@[simp] theorem GetContainerLogs_docker (w : World) (n : String) :
    (utils.GetContainerLogs w n).2.docker = w.docker := by
  simp only [utils.GetContainerLogs]
  repeat' split
  all_goals simp [*]

@[simp] theorem InspectContainer_store (w : World) (n : String) :
    (utils.InspectContainer w n).2.store = w.store := by
  simp only [utils.InspectContainer]
  repeat' split
  all_goals simp [*]

@[simp] theorem InspectContainer_dirs (w : World) (n : String) :
    (utils.InspectContainer w n).2.dirs = w.dirs := by
  simp only [utils.InspectContainer]
  repeat' split
  all_goals simp [*]

@[simp] theorem InspectContainer_faults (w : World) (n : String) :
    (utils.InspectContainer w n).2.faults = w.faults := by
  simp only [utils.InspectContainer]
  repeat' split
  all_goals simp [*]

@[simp] theorem InspectContainer_docker (w : World) (n : String) :
    (utils.InspectContainer w n).2.docker = w.docker := by
  simp only [utils.InspectContainer]
  repeat' split
  all_goals simp [*]

@[simp] theorem ContainerExists_store (w : World) (n : String) :
    (utils.ContainerExists w n).2.store = w.store := by
  simp only [utils.ContainerExists]
  repeat' split
  all_goals simp [*]

@[simp] theorem ContainerExists_dirs (w : World) (n : String) :
    (utils.ContainerExists w n).2.dirs = w.dirs := by
  simp only [utils.ContainerExists]
  repeat' split
  all_goals simp [*]

@[simp] theorem ContainerExists_faults (w : World) (n : String) :
    (utils.ContainerExists w n).2.faults = w.faults := by
  simp only [utils.ContainerExists]
  repeat' split
  all_goals simp [*]

@[simp] theorem ContainerExists_docker (w : World) (n : String) :
    (utils.ContainerExists w n).2.docker = w.docker := by
  simp only [utils.ContainerExists]
  repeat' split
  all_goals simp [*]

theorem newCalls_eq (w w' : World) (l : List Event) (h : w'.trace = w.trace ++ l) :
    w.newCalls w' = l := by
  simp [World.newCalls, h]

/-! ### Calls made by the runtime client -/

@[simp] theorem StartContainer_trace (w : World) (n : String) :
    (utils.StartContainer w n).2.trace =
      w.trace ++ [⟨Call.containerStart n, (utils.StartContainer w n).1.isNone⟩] := by
  simp only [utils.StartContainer]
  split <;> simp [*]

@[simp] theorem StopContainer_trace (w : World) (n : String) :
    (utils.StopContainer w n).2.trace =
      w.trace ++ [⟨Call.containerStop n, (utils.StopContainer w n).1.isNone⟩] := by
  simp only [utils.StopContainer]
  split <;> simp [*]

@[simp] theorem RemoveContainer_trace (w : World) (n : String) :
    (utils.RemoveContainer w n).2.trace =
      w.trace ++ [⟨Call.containerStop n, (utils.StopContainer w n).1.isNone⟩,
        ⟨Call.containerRemove n, (utils.RemoveContainer w n).1.isNone⟩] := by
  simp only [utils.RemoveContainer]
  split <;> simp [*]

@[simp] theorem RemoveVolume_trace (w : World) (v : String) :
    (utils.RemoveVolume w v).2.trace =
      w.trace ++ [⟨Call.volumeRemove v, (utils.RemoveVolume w v).1.isNone⟩] := by
  simp only [utils.RemoveVolume]
  split <;> simp [*]

@[simp] theorem InspectContainer_trace (w : World) (n : String) :
    (utils.InspectContainer w n).2.trace =
      w.trace ++ [⟨Call.containerInspect n, succeeded (utils.InspectContainer w n).1⟩] := by
  simp only [utils.InspectContainer]
  repeat' split
  all_goals simp [*]

@[simp] theorem ContainerExists_trace (w : World) (n : String) :
    (utils.ContainerExists w n).2.trace =
      w.trace ++ [⟨Call.containerInspect n, (utils.ContainerExists w n).1⟩] := by
  simp only [utils.ContainerExists]
  split <;> simp [*]

theorem createVolume_trace (w : World) (v : String) :
    ∃ l, (utils.createVolume w v).2.trace = w.trace ++ l ∧
      ∀ e ∈ l, e.call = Call.volumeList ∨ e.call = Call.volumeCreate v := by
  simp only [utils.createVolume]
  repeat' split
  all_goals simp [*]

theorem ensureImage_trace (w : World) (ref : String) :
    ∃ l, (utils.ensureImage w ref).2.trace = w.trace ++ l ∧
      ∀ e ∈ l, e.call = Call.imageInspect ref ∨ e.call = Call.imagePull ref ∨
        e.call = Call.pullRead ref := by
  simp only [utils.ensureImage]
  repeat' split
  all_goals simp [*]

theorem GetContainerLogs_trace (w : World) (n : String) :
    ∃ l, (utils.GetContainerLogs w n).2.trace = w.trace ++ l ∧
      ∀ e ∈ l, e.call = Call.containerLogs n ∨ e.call = Call.logsRead n := by
  simp only [utils.GetContainerLogs]
  repeat' split
  all_goals simp [*]

/-- The calls `CreateAndStartContainer` can make. -/
theorem CreateAndStartContainer_trace (w : World) (n : String) (port : Int) (fp cp : Path) :
    ∃ l, (utils.CreateAndStartContainer w n port fp cp).2.trace = w.trace ++ l ∧
      ∀ e ∈ l, e.call = Call.volumeList ∨ e.call = Call.volumeCreate (n ++ "_settings_vol") ∨
        e.call = Call.imageInspect utils.imageRef ∨ e.call = Call.imagePull utils.imageRef ∨
        e.call = Call.pullRead utils.imageRef ∨ e.call = Call.containerCreate ("files_" ++ n) ∨
        e.call = Call.containerStart ("files_" ++ n) := by
  obtain ⟨l1, h1, g1⟩ := createVolume_trace w (n ++ "_settings_vol")
  obtain ⟨l2, h2, g2⟩ := ensureImage_trace (utils.createVolume w (n ++ "_settings_vol")).2
    utils.imageRef
  simp only [utils.CreateAndStartContainer]
  split
  · exact ⟨l1, h1, fun e he => by rcases g1 e he with h | h <;> simp [h]⟩
  · split
    · refine ⟨l1 ++ l2, by simp [h1, h2], fun e he => ?_⟩
      rcases List.mem_append.1 he with he | he
      · rcases g1 e he with h | h <;> simp [h]
      · rcases g2 e he with h | h | h <;> simp [h]
    · have h3 := containerCreate_trace (utils.ensureImage
        (utils.createVolume w (n ++ "_settings_vol")).2 utils.imageRef).2 utils.imageRef port fp
        (n ++ "_settings_vol") cp ("files_" ++ n)
      split
      · refine ⟨l1 ++ l2 ++ [⟨Call.containerCreate ("files_" ++ n), false⟩],
          by simp [h1, h2, *], fun e he => ?_⟩
        simp only [List.mem_append, List.mem_singleton] at he
        rcases he with (he | he) | he
        · rcases g1 e he with h | h <;> simp [h]
        · rcases g2 e he with h | h | h <;> simp [h]
        · simp [he]
      · rename_i id hid
        have hidn : id = "files_" ++ n := by
          revert hid
          unfold cli.ContainerCreate
          repeat' split
          all_goals simp
          exact fun h => h.symm
        subst hidn
        refine ⟨l1 ++ l2 ++ [⟨Call.containerCreate ("files_" ++ n), true⟩,
          ⟨Call.containerStart ("files_" ++ n), (cli.ContainerStart (cli.ContainerCreate
            (utils.ensureImage (utils.createVolume w (n ++ "_settings_vol")).2 utils.imageRef).2
            utils.imageRef port fp (n ++ "_settings_vol") cp ("files_" ++ n)).2
            ("files_" ++ n)).1.isNone⟩], ?_, fun e he => ?_⟩
        · split <;> simp [h1, h2, *]
        · simp only [List.mem_append, List.mem_cons, List.mem_singleton, List.not_mem_nil,
            or_false] at he
          rcases he with (he | he) | he | he
          · rcases g1 e he with h | h <;> simp [h]
          · rcases g2 e he with h | h | h <;> simp [h]
          · simp [he]
          · simp [he]

/-- A successful `CreateAndStartContainer` made a successful start call. -/
theorem CreateAndStartContainer_started (w : World) (n : String) (port : Int) (fp cp : Path)
    (cn : String) (h : (utils.CreateAndStartContainer w n port fp cp).1 = .ok cn) :
    ⟨Call.containerStart ("files_" ++ n), true⟩ ∈
      w.newCalls (utils.CreateAndStartContainer w n port fp cp).2 := by
  obtain ⟨l1, h1, -⟩ := createVolume_trace w (n ++ "_settings_vol")
  obtain ⟨l2, h2, -⟩ := ensureImage_trace (utils.createVolume w (n ++ "_settings_vol")).2
    utils.imageRef
  simp only [utils.CreateAndStartContainer] at h ⊢
  split at h
  · simp at h
  · rename_i g1
    split at h
    · simp at h
    · rename_i g2
      split at h
      · simp at h
      · rename_i id g3
        have hidn : id = "files_" ++ n := by
          revert g3
          unfold cli.ContainerCreate
          repeat' split
          all_goals simp
          exact fun h => h.symm
        subst hidn
        split at h
        · simp at h
        · rename_i g4
          simp only [g1, g2, g3, g4]
          rw [newCalls_eq w _ (l1 ++ l2 ++ [⟨Call.containerCreate ("files_" ++ n), true⟩,
            ⟨Call.containerStart ("files_" ++ n), true⟩]) (by simp [h1, h2, g3, g4])]
          simp

/-! ### Facts about the Store -/

theorem getTenantByName_ok (w : World) (name : String) (t : database.Tenant)
    (h : (database.GetTenantByName w name).1 = .ok t) :
    w.fault = none ∧ w.store.rows.find? (fun r => r.Name == name) = some t := by
  unfold database.GetTenantByName at h
  cases hf : w.fault with
  | some e => simp [hf] at h
  | none =>
    cases hr : w.store.rows.find? (fun r => r.Name == name) with
    | none => simp [hf, hr] at h
    | some r => simp [hf, hr] at h; simp [h]

theorem found_row (rows : List database.Tenant) (name : String) (t : database.Tenant)
    (h : rows.find? (fun r => r.Name == name) = some t) :
    t.Name = name ∧ t ∈ rows ∧ rows.any (fun r => r.Name == name) = true := by
  have h1 := List.find?_some h
  have h2 := List.mem_of_find?_eq_some h
  refine ⟨by simpa using h1, h2, ?_⟩
  simp only [List.any_eq_true]
  exact ⟨t, h2, h1⟩

theorem status_after_update (rows : List database.Tenant) (name status : String)
    (h : rows.any (fun r => r.Name == name) = true) :
    ((rows.map (fun (t : database.Tenant) =>
        if t.Name == name then { t with Status := status } else t)).find?
      (fun r => r.Name == name)).map (fun t => t.Status) = some status := by
  induction rows with
  | nil => simp at h
  | cons r rs ih =>
    by_cases hr : r.Name = name
    · simp [hr]
    · have : rs.any (fun r => r.Name == name) = true := by
        simpa [hr] using h
      simpa [hr, List.find?_cons] using ih this

theorem updateTenantStatus_ok (w : World) (name status : String) (hf : w.fault = none)
    (h : w.store.rows.any (fun r => r.Name == name) = true) :
    (database.UpdateTenantStatus w name status).1 = none ∧
      (database.UpdateTenantStatus w name status).2.storedStatus name = some status := by
  unfold database.UpdateTenantStatus
  simp only [hf, h, if_true]
  exact ⟨trivial, by simpa [World.storedStatus] using status_after_update w.store.rows name status h⟩

theorem updateTenantStatus_failed (w : World) (name status e : String)
    (h : (database.UpdateTenantStatus w name status).1 = some e) :
    (database.UpdateTenantStatus w name status).2.store = w.store := by
  unfold database.UpdateTenantStatus at h ⊢
  cases hf : w.fault with
  | some e => simp
  | none =>
    simp only [hf] at h ⊢
    split <;> simp_all

theorem deleteTenant_ok (w : World) (name : String) (hf : w.fault = none)
    (h : w.store.rows.any (fun r => r.Name == name) = true) :
    (database.DeleteTenant w name).1 = none ∧
      (database.DeleteTenant w name).2.hasRecord name = false := by
  unfold database.DeleteTenant
  simp only [hf, h, if_true]
  refine ⟨trivial, ?_⟩
  simp [World.hasRecord]

theorem deleteTenant_none (w : World) (name : String)
    (h : (database.DeleteTenant w name).1 = none) :
    (database.DeleteTenant w name).2.hasRecord name = false := by
  unfold database.DeleteTenant at h ⊢
  cases hf : w.fault with
  | some e => simp [hf] at h
  | none =>
    simp only [hf] at h ⊢
    split
    · simp [World.hasRecord]
    · simp_all

/-! ### Port allocation -/

theorem topByPort_none (rows : List database.Tenant) :
    database.topByPort rows = none ↔ rows = [] := by
  cases rows with
  | nil => simp [database.topByPort]
  | cons r rs =>
    simp only [database.topByPort]
    split <;> simp
    split <;> simp

theorem topByPort_some (rows : List database.Tenant) (b : database.Tenant)
    (h : database.topByPort rows = some b) : b ∈ rows ∧ ∀ r ∈ rows, r.Port ≤ b.Port := by
  induction rows generalizing b with
  | nil => simp [database.topByPort] at h
  | cons r rs ih =>
    simp only [database.topByPort] at h
    split at h
    · rename_i hn
      have : rs = [] := (topByPort_none rs).1 hn
      simp at h
      subst h; subst this
      simp
    · rename_i c hc
      obtain ⟨hm, hle⟩ := ih c hc
      split at h
      · simp at h
        subst h
        refine ⟨by simp, fun x hx => ?_⟩
        rcases List.mem_cons.1 hx with hx | hx
        · simp [hx]
        · exact le_trans (hle x hx) ‹_›
      · simp at h
        subst h
        refine ⟨List.mem_cons_of_mem _ hm, fun x hx => ?_⟩
        rcases List.mem_cons.1 hx with hx | hx
        · subst hx; omega
        · exact hle x hx

theorem dbCreate_ok (w : World) (t row : database.Tenant)
    (h : (database.CreateTenant w t).1 = .ok row) :
    row = { t with ID := w.store.nextID } ∧
      (database.CreateTenant w t).2.store =
        { rows := w.store.rows ++ [row], nextID := w.store.nextID + 1 } := by
  unfold database.CreateTenant at h ⊢
  cases hf : w.fault with
  | some e => simp [hf] at h
  | none =>
    simp only [hf] at h ⊢
    split at h
    · simp at h
    · split at h
      · simp at h
      · simp at h
        subst h
        simp [*]

/-- What a successful `CreateTenant` did to the Store. -/
theorem createTenant_ok (s : services.TenantService) (w : World) (name : String)
    (tenant : models.Tenant) (h : (services.CreateTenant s w name).1 = .ok tenant) :
    ∃ port, (database.GetNextAvailablePort (database.GetTenantByName w name).2).1 = .ok port ∧
      tenant.Port = port ∧ tenant.Name = name ∧
      (services.CreateTenant s w name).2.store =
        { rows := w.store.rows ++ [services.newRow w.store.nextID name port],
          nextID := w.store.nextID + 1 } := by
  simp only [services.CreateTenant] at h ⊢
  split at h
  · simp at h
  · rename_i e1 h1
    split at h
    · simp at h
    · rename_i port h2
      split at h
      · simp at h
      · rename_i h3
        split at h
        · simp at h
        · rename_i h4
          split at h
          · simp at h
          · rename_i cn h5
            split at h
            · simp at h
            · rename_i row h7
              obtain ⟨hrow, hstore⟩ := dbCreate_ok _ _ _ h7
              simp only at h
              refine ⟨port, h2, ?_, ?_, ?_⟩
              · rw [← Except.ok.inj h, hrow]; rfl
              · rw [← Except.ok.inj h, hrow]; rfl
              · simp only [h1, h2, h3, h4, h5, h7, hstore, hrow]
                simp [services.newRow]

theorem wrapInt_id (x : Int) (h1 : -2 ^ 63 ≤ x) (h2 : x < 2 ^ 63) : wrapInt x = x := by
  unfold wrapInt
  omega

theorem nextPort_empty (w : World) (hf : w.fault = none) (h : w.store.rows = []) :
    (database.GetNextAvailablePort w).1 = .ok 9000 := by
  simp [database.GetNextAvailablePort, hf, h, database.topByPort]

theorem nextPort_max (w : World) (m : Int) (hf : w.fault = none)
    (hmem : ∃ r ∈ w.store.rows, r.Port = m) (hmax : ∀ r ∈ w.store.rows, r.Port ≤ m)
    (h1 : -2 ^ 63 ≤ m) (h2 : m < maxInt) :
    (database.GetNextAvailablePort w).1 = .ok (m + 1) := by
  unfold maxInt at h2
  cases ht : database.topByPort w.store.rows with
  | none =>
    obtain ⟨r, hr, -⟩ := hmem
    rw [(topByPort_none _).1 ht] at hr
    simp at hr
  | some b =>
    obtain ⟨hb, hle⟩ := topByPort_some _ _ ht
    obtain ⟨r, hr, hrm⟩ := hmem
    have : b.Port = m := le_antisymm (hmax b hb) (hrm ▸ hle r hr)
    simp only [database.GetNextAvailablePort, hf, ht, this]
    rw [wrapInt_id (m + 1) (by omega) (by omega)]

/-- The port a successful allocation returns, in terms of the rows. -/
theorem nextPort_ok (w : World) (p : Int) (h : (database.GetNextAvailablePort w).1 = .ok p) :
    (w.store.rows = [] → p = 9000) ∧
      (∀ b, database.topByPort w.store.rows = some b → p = wrapInt (b.Port + 1)) := by
  unfold database.GetNextAvailablePort at h
  cases hf : w.fault with
  | some e => simp [hf] at h
  | none =>
    simp only [hf] at h
    cases ht : database.topByPort w.store.rows with
    | none =>
      simp [ht] at h
      exact ⟨fun _ => h.symm, fun b hb => by simp at hb⟩
    | some b =>
      simp [ht] at h
      refine ⟨fun he => ?_, fun c hc => ?_⟩
      · rw [he] at ht; simp [database.topByPort] at ht
      · simp at hc; subst hc; exact h.symm

/-- Claim C4, amended: the port of a newly created tenant is strictly greater
than every port held by a row of the Store at the time of the call (stored
ports within the range of Go's `int`, the largest excluded). -/
theorem createTenant_port_above (s : services.TenantService) (w : World) (name : String)
    (tenant : models.Tenant)
    (hint : ∀ r ∈ w.store.rows, -2 ^ 63 ≤ r.Port ∧ r.Port < maxInt)
    (h : (services.CreateTenant s w name).1 = .ok tenant) :
    ∀ r ∈ w.store.rows, r.Port < tenant.Port := by
  obtain ⟨port, hp, htp, -, -⟩ := createTenant_ok s w name tenant h
  obtain ⟨-, hsome⟩ := nextPort_ok _ _ hp
  intro r hr
  cases ht : database.topByPort w.store.rows with
  | none => rw [(topByPort_none _).1 ht] at hr; simp at hr
  | some b =>
    obtain ⟨hb, hle⟩ := topByPort_some _ _ ht
    have hpb := hsome b (by simpa using ht)
    obtain ⟨hb1, hb2⟩ := hint b hb
    unfold maxInt at hb2
    rw [wrapInt_id _ (by omega) (by omega)] at hpb
    have := hle r hr
    omega

theorem createAll_ports (s : services.TenantService) (names : List String) :
    ∀ (w : World) (k : Nat),
      w.store.rows.map (fun r => r.Port) = (List.range k).map (fun (i : Nat) => (9000 + (i : Int) : Int)) →
      9000 + (k : Int) + names.length ≤ 2 ^ 63 →
      (∀ r ∈ (services.createAll s w names).1, succeeded r = true) →
      (services.createAll s w names).1.map services.portOf =
        (List.range names.length).map (fun (i : Nat) => some (9000 + (k : Int) + (i : Int) : Int)) := by
  induction names with
  | nil => intro w k _ _ _; simp [services.createAll]
  | cons name rest ih =>
    intro w k hrows hbound hok
    simp only [List.length_cons] at hbound
    push_cast at hbound
    simp only [services.createAll] at hok ⊢
    have hfirst := hok (services.CreateTenant s w name).1 (by simp)
    cases hr : (services.CreateTenant s w name).1 with
    | error e => simp [hr] at hfirst
    | ok tenant =>
      obtain ⟨port, hp, htp, -, hstore⟩ := createTenant_ok s w name tenant hr
      obtain ⟨hnone, hsome⟩ := nextPort_ok _ _ hp
      simp only [dbGetByName_store] at hnone hsome
      have hport : port = 9000 + (k : Int) := by
        cases ht : database.topByPort w.store.rows with
        | none =>
          have hnil := (topByPort_none _).1 ht
          rw [hnil] at hrows
          cases k with
          | zero => simpa using hnone hnil
          | succ k => simp [List.range_succ] at hrows
        | some b =>
          obtain ⟨hb, hle⟩ := topByPort_some _ _ ht
          have hpb := hsome b ht
          have hbmem : b.Port ∈ w.store.rows.map (fun r => r.Port) := List.mem_map.2 ⟨b, hb, rfl⟩
          rw [hrows] at hbmem
          obtain ⟨i, hi, hib⟩ := List.mem_map.1 hbmem
          have hi' := List.mem_range.1 hi
          have hk : 0 < k := by omega
          have hlast : (9000 + ((k - 1 : Nat) : Int)) ∈ w.store.rows.map (fun r => r.Port) := by
            rw [hrows]; exact List.mem_map.2 ⟨k - 1, List.mem_range.2 (by omega), rfl⟩
          obtain ⟨c, hc, hcp⟩ := List.mem_map.1 hlast
          have := hle c hc
          have hbk : b.Port = 9000 + ((k - 1 : Nat) : Int) := by omega
          rw [hpb, hbk, wrapInt_id _ (by omega) (by omega)]
          omega
      have hrows' : (services.CreateTenant s w name).2.store.rows.map (fun r => r.Port) =
          (List.range (k + 1)).map (fun (i : Nat) => (9000 + (i : Int) : Int)) := by
        rw [hstore]
        simp [List.range_succ, hrows, services.newRow, hport]
      have ih' := ih (services.CreateTenant s w name).2 (k + 1) hrows'
        (by push_cast; omega)
        (fun r hr' => hok r (by simp [hr']))
      simp only [List.map_cons, hr, services.portOf, ih', List.length_cons, List.range_succ_eq_map,
        List.map_map]
      simp only [htp, hport]
      congr 1
      simp only [List.map_inj_left, Function.comp, Option.some.injEq]
      intro a _
      push_cast
      omega

/-! ### Effects of the compensating removals -/

theorem dbCreate_failed (w : World) (t : database.Tenant) (e : String)
    (h : (database.CreateTenant w t).1 = .error e) :
    (database.CreateTenant w t).2.store = w.store := by
  unfold database.CreateTenant at h ⊢
  cases hf : w.fault with
  | some e => simp
  | none =>
    simp only [hf] at h ⊢
    repeat' split
    all_goals simp_all

theorem RemoveContainer_none (w : World) (n : String)
    (h : (utils.RemoveContainer w n).1 = none) :
    (utils.RemoveContainer w n).2.hasContainer n = false := by
  simp only [utils.RemoveContainer] at h ⊢
  split at h
  · simp at h
  · rename_i hr
    simp only [hr]
    unfold cli.ContainerRemove at hr ⊢
    cases hf : (utils.StopContainer w n).2.fault with
    | some e => simp [hf] at hr
    | none =>
      simp only [hf] at hr ⊢
      split
      · simp [World.hasContainer, cli.setDocker]
      · simp_all

@[simp] theorem RemoveVolume_containers (w : World) (v : String) :
    (utils.RemoveVolume w v).2.docker.containers = w.docker.containers := by
  simp only [utils.RemoveVolume]
  have : (cli.VolumeRemove w v).2.docker.containers = w.docker.containers := by
    unfold cli.VolumeRemove
    cases w.fault <;> simp only [] <;> (repeat' split) <;> simp [cli.setDocker]
  split <;> simp [this]

theorem RemoveVolume_none (w : World) (v : String)
    (h : (utils.RemoveVolume w v).1 = none) :
    (utils.RemoveVolume w v).2.hasVolume v = false := by
  simp only [utils.RemoveVolume] at h ⊢
  split at h
  · simp at h
  · rename_i hr
    simp only [hr]
    unfold cli.VolumeRemove at hr ⊢
    cases hf : w.fault with
    | some e => simp [hf] at hr
    | none =>
      simp only [hf] at hr ⊢
      split
      · simp_all
      · simp [World.hasVolume, cli.setDocker]

theorem RemoveAll_none (w : World) (p : Path) (h : (os.RemoveAll w p).1 = none) :
    ∀ q, p.isPrefixOf q = true → (os.RemoveAll w p).2.hasDir q = false := by
  unfold os.RemoveAll at h ⊢
  cases hf : w.fault with
  | some e => simp [hf] at h
  | none =>
    intro q hq
    simp only [World.hasDir, emit_dirs]
    simp only [List.contains_eq_any_beq, List.any_eq_false, List.mem_filter]
    rintro x ⟨-, hx⟩
    simp only [beq_iff_eq]
    rintro rfl
    simp [hq] at hx

/-! ### Claims about the guards and the status transitions -/

/-- When the lookup of `name` returns a record, `CreateTenant` fails
with the conflict error and changes nothing: the Store, the directories and
the daemon (containers and volumes) are as before, and the lookup is the only
call made, so no port is allocated. -/
theorem createTenant_existing_name_conflict (s : services.TenantService) (w : World)
    (name : String) (t : database.Tenant)
    (h : (database.GetTenantByName w name).1 = .ok t) :
    (services.CreateTenant s w name).1 = .error "tenant already exists" ∧
      (services.CreateTenant s w name).2.store = w.store ∧
      (services.CreateTenant s w name).2.dirs = w.dirs ∧
      (services.CreateTenant s w name).2.docker = w.docker ∧
      w.newCalls (services.CreateTenant s w name).2 = [⟨Call.dbGetByName name, true⟩] := by
  simp only [services.CreateTenant, h]
  refine ⟨trivial, by simp, by simp, by simp, ?_⟩
  exact newCalls_eq _ _ _ (by simp [h])

/-- Claim C6: for a tenant the lookup returns, `StartTenantContainer` on a
stored status `running` and `StopTenantContainer` on any other stored status
fail with the precondition error, make no call to the container runtime and
leave the Store and the daemon unchanged. -/
theorem start_stop_guard_no_runtime_call (s : services.TenantService) (w : World)
    (name : String) (t : database.Tenant)
    (h : (database.GetTenantByName w name).1 = .ok t) :
    (t.Status = models.StatusRunning →
      (services.StartTenantContainer s w name).1 = some "container is already running" ∧
        (services.StartTenantContainer s w name).2.runtimeCalls = w.runtimeCalls ∧
        (services.StartTenantContainer s w name).2.store = w.store ∧
        (services.StartTenantContainer s w name).2.docker = w.docker) ∧
    (t.Status ≠ models.StatusRunning →
      (services.StopTenantContainer s w name).1 = some "container is not running" ∧
        (services.StopTenantContainer s w name).2.runtimeCalls = w.runtimeCalls ∧
        (services.StopTenantContainer s w name).2.store = w.store ∧
        (services.StopTenantContainer s w name).2.docker = w.docker) := by
  constructor
  · intro hs
    simp only [services.StartTenantContainer, h, hs, beq_self_eq_true, if_true]
    simp [World.runtimeCalls, Call.isRuntime]
  · intro hs
    simp only [services.StopTenantContainer, h]
    simp [World.runtimeCalls, Call.isRuntime, hs]

/-- Claim C7: for a tenant that passes the transition guard, a failing runtime
call makes `StartTenantContainer` / `StopTenantContainer` return an error
wrapping the runtime error, with the Store and the stored status as before;
a successful runtime call followed by a successful Store write returns nil and
leaves the stored status `running` / `stopped`. -/
theorem start_stop_status_follows_runtime (s : services.TenantService) (w : World)
    (name : String) (t : database.Tenant)
    (h : (database.GetTenantByName w name).1 = .ok t) :
    (t.Status ≠ models.StatusRunning →
      (∀ e, (cli.ContainerStart (database.GetTenantByName w name).2 t.ContainerName).1 = some e →
        (services.StartTenantContainer s w name).1 =
            some ("failed to start container: " ++ ("failed to start container: " ++ e)) ∧
          (services.StartTenantContainer s w name).2.store = w.store ∧
          (services.StartTenantContainer s w name).2.storedStatus name = some t.Status) ∧
      ((cli.ContainerStart (database.GetTenantByName w name).2 t.ContainerName).1 = none →
        (cli.ContainerStart (database.GetTenantByName w name).2 t.ContainerName).2.fault = none →
        (services.StartTenantContainer s w name).1 = none ∧
          (services.StartTenantContainer s w name).2.storedStatus name =
            some models.StatusRunning)) ∧
    (t.Status = models.StatusRunning →
      (∀ e, (cli.ContainerStop (database.GetTenantByName w name).2 t.ContainerName).1 = some e →
        (services.StopTenantContainer s w name).1 =
            some ("failed to stop container: " ++ ("failed to stop container: " ++ e)) ∧
          (services.StopTenantContainer s w name).2.store = w.store ∧
          (services.StopTenantContainer s w name).2.storedStatus name = some t.Status) ∧
      ((cli.ContainerStop (database.GetTenantByName w name).2 t.ContainerName).1 = none →
        (cli.ContainerStop (database.GetTenantByName w name).2 t.ContainerName).2.fault = none →
        (services.StopTenantContainer s w name).1 = none ∧
          (services.StopTenantContainer s w name).2.storedStatus name =
            some models.StatusStopped)) := by
  obtain ⟨-, hfind⟩ := getTenantByName_ok w name t h
  obtain ⟨-, -, hany⟩ := found_row _ _ _ hfind
  have hst : w.storedStatus name = some t.Status := by simp [World.storedStatus, hfind]
  refine ⟨fun hs => ⟨fun e he => ?_, fun he hf => ?_⟩, fun hs => ⟨fun e he => ?_, fun he hf => ?_⟩⟩
  · simp only [services.StartTenantContainer, h, utils.StartContainer, he]
    simp [hs, World.storedStatus, hfind]
  · have hu := updateTenantStatus_ok
      (cli.ContainerStart (database.GetTenantByName w name).2 t.ContainerName).2 name
      models.StatusRunning hf (by simpa using hany)
    simp only [services.StartTenantContainer, h, utils.StartContainer, he]
    simp [hs, hu.1, hu.2]
  · simp only [services.StopTenantContainer, h, utils.StopContainer, he]
    simp [hs, World.storedStatus, hfind]
  · have hu := updateTenantStatus_ok
      (cli.ContainerStop (database.GetTenantByName w name).2 t.ContainerName).2 name
      models.StatusStopped hf (by simpa using hany)
    simp only [services.StopTenantContainer, h, utils.StopContainer, he]
    simp [hs, hu.1, hu.2]

/-- The calls of a `DeleteTenant` whose fetch returned a row. -/
theorem deleteTenant_calls (s : services.TenantService) (w : World) (name : String)
    (t : database.Tenant) (h : (database.GetTenantByName w name).1 = .ok t) :
    w.newCalls (services.DeleteTenant s w name).2 =
      [⟨Call.dbGetByName name, true⟩,
        ⟨Call.containerStop t.ContainerName,
          (utils.StopContainer (database.GetTenantByName w name).2 t.ContainerName).1.isNone⟩,
        ⟨Call.containerRemove t.ContainerName,
          (utils.RemoveContainer (database.GetTenantByName w name).2 t.ContainerName).1.isNone⟩,
        ⟨Call.volumeRemove t.VolumeName,
          (utils.RemoveVolume (utils.RemoveContainer (database.GetTenantByName w name).2
            t.ContainerName).2 t.VolumeName).1.isNone⟩,
        ⟨Call.removeAll (s.baseDir ++ ["tenants", name]),
          (os.RemoveAll (utils.RemoveVolume (utils.RemoveContainer
            (database.GetTenantByName w name).2 t.ContainerName).2 t.VolumeName).2
            (s.baseDir ++ ["tenants", name])).1.isNone⟩,
        ⟨Call.dbDelete name, (services.DeleteTenant s w name).1.isNone⟩] := by
  apply newCalls_eq
  simp only [services.DeleteTenant, h]
  split <;> simp [*]

/-- Claim C10: for a tenant the lookup returns, `DeleteTenant` calls container
stop and removal, volume removal, directory removal and the Store deletion, in
that order, whatever the outcomes of the first four; its result is nil exactly
when the Store deletion succeeded, which leaves no record and which happens
whenever the deletion call itself does not fail.  `DeleteTenant` returns an
error only when the initial fetch errored or the Store deletion failed. -/
theorem deleteTenant_soft_failure (s : services.TenantService) (w : World) (name : String) :
    (∀ t, (database.GetTenantByName w name).1 = .ok t →
      ∃ o0 o1 o2 o3 o4,
        w.newCalls (services.DeleteTenant s w name).2 =
          [⟨Call.dbGetByName name, true⟩, ⟨Call.containerStop t.ContainerName, o0⟩,
            ⟨Call.containerRemove t.ContainerName, o1⟩, ⟨Call.volumeRemove t.VolumeName, o2⟩,
            ⟨Call.removeAll (s.baseDir ++ ["tenants", name]), o3⟩, ⟨Call.dbDelete name, o4⟩] ∧
        ((services.DeleteTenant s w name).1 = none ↔ o4 = true) ∧
        (o4 = true → (services.DeleteTenant s w name).2.hasRecord name = false) ∧
        ((os.RemoveAll (utils.RemoveVolume (utils.RemoveContainer
            (database.GetTenantByName w name).2 t.ContainerName).2 t.VolumeName).2
            (s.baseDir ++ ["tenants", name])).2.fault = none → o4 = true)) ∧
    (∀ e, (services.DeleteTenant s w name).1 = some e →
      (∃ e0, (database.GetTenantByName w name).1 = .error e0) ∨
        ⟨Call.dbDelete name, false⟩ ∈ w.newCalls (services.DeleteTenant s w name).2) := by
  constructor
  · intro t h
    obtain ⟨-, hfind⟩ := getTenantByName_ok w name t h
    obtain ⟨-, -, hany⟩ := found_row _ _ _ hfind
    refine ⟨_, _, _, _, _, deleteTenant_calls s w name t h, ?_, ?_, ?_⟩
    · cases (services.DeleteTenant s w name).1 <;> simp
    · intro ho
      simp only [services.DeleteTenant, h] at ho ⊢
      split
      · rename_i e he; simp [he] at ho
      · rename_i he; simpa using deleteTenant_none _ name he
    · intro hf
      have hd := deleteTenant_ok (os.RemoveAll (utils.RemoveVolume
        (utils.RemoveContainer (database.GetTenantByName w name).2 t.ContainerName).2
        t.VolumeName).2 (s.baseDir ++ ["tenants", name])).2 name hf (by simpa using hany)
      simp only [services.DeleteTenant, h, hd.1]
      rfl
  · intro e he
    cases h : (database.GetTenantByName w name).1 with
    | error e0 => exact Or.inl ⟨e0, rfl⟩
    | ok t =>
      right
      rw [deleteTenant_calls s w name t h]
      simp [he]

/-- The outcome of the status block when the container exists and is inspected. -/
theorem reconcile_inspected (w : World) (t : database.Tenant) (live : String)
    (h2 : (utils.ContainerExists w t.ContainerName).1 = true)
    (h3 : (utils.InspectContainer (utils.ContainerExists w t.ContainerName).2
      t.ContainerName).1 = .ok live) :
    (services.reconcile w t).1 = live ∧
      (services.reconcile w t).2 =
        if live = t.Status then
          (utils.InspectContainer (utils.ContainerExists w t.ContainerName).2 t.ContainerName).2
        else (database.UpdateTenantStatus (utils.InspectContainer
          (utils.ContainerExists w t.ContainerName).2 t.ContainerName).2 t.Name live).2 := by
  simp only [services.reconcile, h2, h3, if_true]
  by_cases hl : live = t.Status <;> simp [hl]

/-- Claim C8: for a tenant the lookup returns, whose container exists and is
inspected with result `live`, `GetTenant` returns status `live`; when `live`
differs from the stored status a status update is issued and, if that write
does not fail, the Store then holds `live`; when they are equal the Store is
unchanged and no Store write is made. -/
theorem getTenant_live_status_wins (s : services.TenantService) (w : World) (name : String)
    (t : database.Tenant) (live : String)
    (h1 : (database.GetTenantByName w name).1 = .ok t)
    (h2 : (utils.ContainerExists (database.GetTenantByName w name).2 t.ContainerName).1 = true)
    (h3 : (utils.InspectContainer (utils.ContainerExists (database.GetTenantByName w name).2
      t.ContainerName).2 t.ContainerName).1 = .ok live) :
    (∃ tenant, (services.GetTenant s w name).1 = .ok tenant ∧ tenant.Status = live) ∧
    (live ≠ t.Status →
      (∃ b, ⟨Call.dbUpdateStatus name live, b⟩ ∈ w.newCalls (services.GetTenant s w name).2) ∧
      ((utils.InspectContainer (utils.ContainerExists (database.GetTenantByName w name).2
          t.ContainerName).2 t.ContainerName).2.fault = none →
        (services.GetTenant s w name).2.storedStatus name = some live)) ∧
    (live = t.Status →
      (services.GetTenant s w name).2.store = w.store ∧
      ∀ e ∈ w.newCalls (services.GetTenant s w name).2, e.call.isStoreWrite = false) := by
  obtain ⟨-, hfind⟩ := getTenantByName_ok w name t h1
  obtain ⟨hname, -, hany⟩ := found_row _ _ _ hfind
  obtain ⟨hr1, hr2⟩ := reconcile_inspected (database.GetTenantByName w name).2 t live h2 h3
  refine ⟨?_, fun hne => ⟨?_, fun hf => ?_⟩, fun heq => ⟨?_, ?_⟩⟩
  · simp only [services.GetTenant, h1, hr1]
    split <;> simp [services.toModel]
  · rw [if_neg hne] at hr2
    obtain ⟨l, hl, -⟩ := GetContainerLogs_trace (services.reconcile
      (database.GetTenantByName w name).2 t).2 t.ContainerName
    refine ⟨(database.UpdateTenantStatus (utils.InspectContainer (utils.ContainerExists
      (database.GetTenantByName w name).2 t.ContainerName).2 t.ContainerName).2 name live).1.isNone,
      ?_⟩
    simp only [services.GetTenant, h1, hr1]
    split
    · rw [newCalls_eq w _ _ (by rw [hl, hr2, hname]; simp; rfl)]
      simp
    · rw [newCalls_eq w _ _ (by rw [hr2, hname]; simp; rfl)]
      simp
  · rw [if_neg hne] at hr2
    have hu := updateTenantStatus_ok _ name live hf
      (by simpa using hany)
    simp only [services.GetTenant, h1, hr1]
    split
    · simp only [World.storedStatus, GetContainerLogs_store, hr2, hname]
      exact hu.2
    · simp only [hr2, hname]
      exact hu.2
  · rw [if_pos heq] at hr2
    simp only [services.GetTenant, h1, hr1]
    split <;> simp [hr2]
  · rw [if_pos heq] at hr2
    obtain ⟨l, hl, hg⟩ := GetContainerLogs_trace (services.reconcile
      (database.GetTenantByName w name).2 t).2 t.ContainerName
    simp only [services.GetTenant, h1, hr1]
    split
    · rw [newCalls_eq w _ _ (by rw [hl, hr2]; simp; rfl)]
      intro e he
      simp only [List.mem_cons, List.mem_append] at he
      rcases he with he | he | he | he
      · simp [he, Call.isStoreWrite]
      · simp [he, Call.isStoreWrite]
      · simp [he, Call.isStoreWrite]
      · rcases hg e he with h | h <;> simp [h, Call.isStoreWrite]
    · rw [newCalls_eq w _ _ (by rw [hr2]; simp; rfl)]
      intro e he
      simp only [List.mem_cons] at he
      rcases he with he | he | he | he
      · simp [he, Call.isStoreWrite]
      · simp [he, Call.isStoreWrite]
      · simp [he, Call.isStoreWrite]
      · simp at he

/-! ### Evaluations on concrete deployments -/

/-- Claim C2, evaluated where the container start fails (the eleventh external
call of a create on the empty deployment): `CreateTenant` aborts and the
directory `/srv/tenants/acme` is gone, but the container `files_acme` and the
volume `acme_settings_vol` are still in the runtime.  When instead the Store
insert fails (the fourteenth call), the same function removes both. -/
theorem createTenant_start_failure_leaks :
    (services.CreateTenant demoService (demoFailingAt 10) "acme").1 =
      .error "failed to create container: failed to start container: injected" ∧
    (services.CreateTenant demoService (demoFailingAt 10) "acme").2.hasDir
      ["srv", "tenants", "acme"] = false ∧
    (services.CreateTenant demoService (demoFailingAt 10) "acme").2.hasContainer
      "files_acme" = true ∧
    (services.CreateTenant demoService (demoFailingAt 10) "acme").2.hasVolume
      "acme_settings_vol" = true ∧
    (services.CreateTenant demoService (demoFailingAt 13) "acme").2.hasContainer
      "files_acme" = false ∧
    (services.CreateTenant demoService (demoFailingAt 13) "acme").2.hasVolume
      "acme_settings_vol" = false :=
  ⟨rfl, rfl, rfl, rfl, rfl, rfl⟩

/-- Claim C9, evaluated on a tenant whose container is in state `dead`:
`GetTenant` and `ListTenants` return the status `dead` and write it to the
Store; `dead` is not `error` and is not one of the four statuses. -/
theorem reconcile_stores_raw_state :
    (services.GetTenant demoService (demoTenantWorld "running" false "dead") "acme").1.toOption.map
      (fun t => t.Status) = some "dead" ∧
    (services.GetTenant demoService (demoTenantWorld "running" false "dead")
      "acme").2.storedStatus "acme" = some "dead" ∧
    (services.ListTenants demoService (demoTenantWorld "running" false "dead") 1 10).1.toOption.map
      (fun r => r.1.map (fun t => t.Status)) = some ["dead"] ∧
    (services.ListTenants demoService (demoTenantWorld "running" false "dead")
      1 10).2.storedStatus "acme" = some "dead" ∧
    models.IsValidStatus "dead" = false ∧
    "dead" ≠ models.StatusError :=
  ⟨rfl, rfl, rfl, rfl, rfl, by decide⟩

/-- Claim C4 fails as stated: create `a` and `b` on the empty deployment, delete
`b`, create `c`: every call succeeds, `b` was given port 9001 and `c` is given
port 9001 again. -/
theorem createTenant_reuses_freed_port :
    services.portOf (services.CreateTenant demoService
      (services.CreateTenant demoService demoWorld "a").2 "b").1 = some 9001 ∧
    (services.DeleteTenant demoService (services.CreateTenant demoService
      (services.CreateTenant demoService demoWorld "a").2 "b").2 "b").1 = none ∧
    services.portOf (services.CreateTenant demoService demoAfterDelete "c").1 = some 9001 :=
  ⟨rfl, rfl, rfl⟩

/-! ### Port allocation over sequential creates -/

/-- Claim C3: `GetNextAvailablePort` returns 9000 on an empty Store and the
maximum stored port plus one otherwise (for a maximum below the largest Go
`int`); and sequential `CreateTenant` calls on an empty Store that all succeed
are given the ports `9000, 9001, ..., 9000 + N - 1` in call order, pairwise
distinct. -/
theorem port_allocation_sequence (s : services.TenantService) (w : World) :
    (w.fault = none → w.store.rows = [] → (database.GetNextAvailablePort w).1 = .ok 9000) ∧
    (∀ m : Int, w.fault = none → (∃ r ∈ w.store.rows, r.Port = m) →
      (∀ r ∈ w.store.rows, r.Port ≤ m) → -2 ^ 63 ≤ m → m < maxInt →
      (database.GetNextAvailablePort w).1 = .ok (m + 1)) ∧
    (∀ names : List String, w.store.rows = [] → 9000 + (names.length : Int) ≤ 2 ^ 63 →
      (∀ r ∈ (services.createAll s w names).1, succeeded r = true) →
      (services.createAll s w names).1.map services.portOf =
          (List.range names.length).map (fun (i : Nat) => some (9000 + (i : Int) : Int)) ∧
        ((services.createAll s w names).1.map services.portOf).Nodup) := by
  refine ⟨nextPort_empty w, fun m hf hmem hmax h1 h2 => nextPort_max w m hf hmem hmax h1 h2,
    fun names hrows hbound hok => ?_⟩
  have h := createAll_ports s names w 0 (by simp [hrows]) (by simpa using hbound) hok
  have h' : (services.createAll s w names).1.map services.portOf =
      (List.range names.length).map (fun (i : Nat) => some (9000 + (i : Int) : Int)) := by
    rw [h]
    simp
  refine ⟨h', ?_⟩
  rw [h']
  refine List.Nodup.map ?_ (List.nodup_range _)
  intro a b hab
  simp only [Option.some.injEq] at hab
  omega

/-- Three creates on the empty deployment get the ports 9000, 9001, 9002. -/
theorem port_allocation_sequence_witness :
    (services.createAll demoService demoWorld ["a", "b", "c"]).1.map services.portOf =
        (List.range 3).map (fun (i : Nat) => some (9000 + (i : Int) : Int)) ∧
      ((services.createAll demoService demoWorld ["a", "b", "c"]).1.map services.portOf).Nodup :=
  (port_allocation_sequence demoService demoWorld).2.2 ["a", "b", "c"] rfl (by decide)
    (by decide)

/-- After creating `a` and `b` and deleting `b`, the port of the new tenant `c`
is above the port of the remaining row. -/
theorem createTenant_port_above_witness :
    services.newRow 1 "a" 9000 ∈ demoAfterDelete.store.rows ∧
      (services.newRow 1 "a" 9000).Port <
        (models.Tenant.mk 3 "c" 9001 "files_c" "c_settings_vol" "running"
          "http://localhost:9001" "admin" "s3cret").Port :=
  ⟨by decide, createTenant_port_above demoService demoAfterDelete "c" _ (by decide) rfl
    (services.newRow 1 "a" 9000) (by decide)⟩

/-- Creating `acme` a second time. -/
theorem createTenant_existing_name_conflict_example :
    (services.CreateTenant demoService (demoTenantWorld "running" true "running") "acme").1 =
        .error "tenant already exists" ∧
      (services.CreateTenant demoService (demoTenantWorld "running" true "running") "acme").2.store =
        (demoTenantWorld "running" true "running").store ∧
      (services.CreateTenant demoService (demoTenantWorld "running" true "running") "acme").2.dirs =
        (demoTenantWorld "running" true "running").dirs ∧
      (services.CreateTenant demoService (demoTenantWorld "running" true "running")
        "acme").2.docker = (demoTenantWorld "running" true "running").docker ∧
      (demoTenantWorld "running" true "running").newCalls
        (services.CreateTenant demoService (demoTenantWorld "running" true "running") "acme").2 =
        [⟨Call.dbGetByName "acme", true⟩] :=
  createTenant_existing_name_conflict demoService (demoTenantWorld "running" true "running")
    "acme" (demoRow "running") rfl

/-- Starting a running tenant and stopping a stopped one. -/
theorem start_stop_guard_no_runtime_call_witness :
    (services.StartTenantContainer demoService (demoTenantWorld "running" true "running")
        "acme").1 = some "container is already running" ∧
      (services.StopTenantContainer demoService (demoTenantWorld "stopped" false "exited")
        "acme").1 = some "container is not running" ∧
      (services.StopTenantContainer demoService (demoTenantWorld "stopped" false "exited")
        "acme").2.runtimeCalls = (demoTenantWorld "stopped" false "exited").runtimeCalls :=
  ⟨((start_stop_guard_no_runtime_call demoService (demoTenantWorld "running" true "running")
      "acme" (demoRow "running") rfl).1 rfl).1,
    ((start_stop_guard_no_runtime_call demoService (demoTenantWorld "stopped" false "exited")
      "acme" (demoRow "stopped") rfl).2 (by decide)).1,
    ((start_stop_guard_no_runtime_call demoService (demoTenantWorld "stopped" false "exited")
      "acme" (demoRow "stopped") rfl).2 (by decide)).2.1⟩

/-- Starting a stopped tenant, and stopping a running tenant whose runtime stop
call fails. -/
theorem start_stop_status_follows_runtime_witness :
    ((services.StartTenantContainer demoService (demoTenantWorld "stopped" false "exited")
        "acme").1 = none ∧
      (services.StartTenantContainer demoService (demoTenantWorld "stopped" false "exited")
        "acme").2.storedStatus "acme" = some models.StatusRunning) ∧
    ((services.StopTenantContainer demoService
        (demoTenantFailingIn "running" true "running" [1]) "acme").1 =
        some ("failed to stop container: " ++ ("failed to stop container: " ++ "injected")) ∧
      (services.StopTenantContainer demoService
        (demoTenantFailingIn "running" true "running" [1]) "acme").2.store =
        (demoTenantFailingIn "running" true "running" [1]).store ∧
      (services.StopTenantContainer demoService
        (demoTenantFailingIn "running" true "running" [1]) "acme").2.storedStatus "acme" =
        some (demoRow "running").Status) :=
  ⟨((start_stop_status_follows_runtime demoService (demoTenantWorld "stopped" false "exited")
      "acme" (demoRow "stopped") rfl).1 (by decide)).2 rfl rfl,
    ((start_stop_status_follows_runtime demoService
      (demoTenantFailingIn "running" true "running" [1]) "acme" (demoRow "running") rfl).2
      rfl).1 "injected" rfl⟩

/-- Stored `stopped`, live `running`: `GetTenant` returns `running` and the Store
then holds `running`. -/
theorem getTenant_live_status_wins_witness :
    (∃ tenant, (services.GetTenant demoService (demoTenantWorld "stopped" true "running")
        "acme").1 = .ok tenant ∧ tenant.Status = "running") ∧
      (services.GetTenant demoService (demoTenantWorld "stopped" true "running")
        "acme").2.storedStatus "acme" = some "running" :=
  ⟨(getTenant_live_status_wins demoService (demoTenantWorld "stopped" true "running") "acme"
      (demoRow "stopped") "running" rfl rfl rfl).1,
    ((getTenant_live_status_wins demoService (demoTenantWorld "stopped" true "running") "acme"
      (demoRow "stopped") "running" rfl rfl rfl).2.1 (by decide)).2 rfl⟩

/-- The container stop and removal, the volume removal and the directory removal
all fail: the record is still deleted and the result is nil. -/
theorem deleteTenant_soft_failure_witness :
    (services.DeleteTenant demoService
        (demoTenantFailingIn "running" true "running" [1, 2, 3, 4]) "acme").1 = none ∧
      (services.DeleteTenant demoService
        (demoTenantFailingIn "running" true "running" [1, 2, 3, 4]) "acme").2.hasRecord
        "acme" = false ∧
      (demoTenantFailingIn "running" true "running" [1, 2, 3, 4]).newCalls
        (services.DeleteTenant demoService
          (demoTenantFailingIn "running" true "running" [1, 2, 3, 4]) "acme").2 =
        [⟨Call.dbGetByName "acme", true⟩, ⟨Call.containerStop "files_acme", false⟩,
          ⟨Call.containerRemove "files_acme", false⟩,
          ⟨Call.volumeRemove "acme_settings_vol", false⟩,
          ⟨Call.removeAll ["srv", "tenants", "acme"], false⟩, ⟨Call.dbDelete "acme", true⟩] :=
  match (deleteTenant_soft_failure demoService
      (demoTenantFailingIn "running" true "running" [1, 2, 3, 4]) "acme").1
      (demoRow "running") rfl with
  | ⟨_, _, _, _, _, _, hiff, hrec, hdel⟩ => ⟨hiff.2 (hdel rfl), hrec (hdel rfl), rfl⟩

/-! ## Image presence -/

/-- Claim C11, evaluated: when the image is not local, `ensureImage` returns the
inspect error and makes no pull, so the image stays absent; when the image is
local it pulls all the same, and a failing pull makes it fail. -/
theorem ensureImage_inverted :
    (utils.ensureImage demoNoImage utils.imageRef).1 =
      some "image not found: No such image: filebrowser/filebrowser" ∧
    demoNoImage.newCalls (utils.ensureImage demoNoImage utils.imageRef).2 =
      [⟨Call.imageInspect utils.imageRef, false⟩] ∧
    (utils.ensureImage demoNoImage utils.imageRef).2.docker.images = [] ∧
    demoWorld.newCalls (utils.ensureImage demoWorld utils.imageRef).2 =
      [⟨Call.imageInspect utils.imageRef, true⟩, ⟨Call.imagePull utils.imageRef, true⟩,
        ⟨Call.pullRead utils.imageRef, true⟩] ∧
    (utils.ensureImage (demoFailingAt 1) utils.imageRef).1 =
      some "failed to pull image: injected" :=
  ⟨rfl, rfl, rfl, rfl, rfl⟩

/-! ## Paging -/

theorem reconcile_trace (w : World) (t : database.Tenant) :
    ∃ l, (services.reconcile w t).2.trace = w.trace ++ l := by
  simp only [services.reconcile]
  repeat' split
  all_goals simp

theorem listLoop_trace (ts : List database.Tenant) :
    ∀ w : World, ∃ l, (services.listLoop w ts).2.trace = w.trace ++ l := by
  induction ts with
  | nil => intro w; exact ⟨[], by simp [services.listLoop]⟩
  | cons t rest ih =>
    intro w
    obtain ⟨l1, h1⟩ := reconcile_trace w t
    obtain ⟨l2, h2⟩ := ih (services.reconcile w t).2
    exact ⟨l1 ++ l2, by simp [services.listLoop, h2, h1]⟩

/-- What a successful `ListTenants` returns as metadata, and the query it made. -/
theorem listTenants_meta (s : services.TenantService) (w : World) (page perPage : Int)
    (r : List models.Tenant × models.PaginationMeta)
    (h : (services.ListTenants s w page perPage).1 = .ok r) :
    r.2.Total = wrapInt w.store.rows.length ∧
      r.2.Page = (if page < 1 then 1 else page) ∧
      r.2.PerPage = (if perPage < 1 then 10 else perPage) ∧
      r.2.MaxPage = services.totalPages r.2.Total r.2.PerPage ∧
      ⟨Call.dbFind r.2.PerPage (wrapInt ((r.2.Page - 1) * r.2.PerPage)), true⟩ ∈
        w.newCalls (services.ListTenants s w page perPage).2 := by
  simp only [services.ListTenants] at h ⊢
  split at h
  · simp at h
  · rename_i dbTenants total hq
    obtain ⟨l, hl⟩ := listLoop_trace dbTenants
      (database.GetAllTenants w (if page < 1 then 1 else page)
        (if perPage < 1 then 10 else perPage)).2
    simp only [Except.ok.injEq] at h
    subst h
    simp only [hq]
    unfold database.GetAllTenants at hq hl ⊢
    cases hf : w.fault with
    | some e => simp [hf] at hq
    | none =>
      simp only [hf] at hq hl ⊢
      cases hf2 : (w.emit Call.dbCount true).fault with
      | some e => simp [hf2] at hq
      | none =>
        simp only [hf2, Except.ok.injEq, Prod.mk.injEq] at hq hl ⊢
        obtain ⟨-, htot⟩ := hq
        refine ⟨by simpa using htot.symm, trivial, trivial, trivial, ?_⟩
        rw [World.newCalls, hl]
        simp
/-! ## Rounding to `float64` -/

theorem roundTiesEven_cases (y : ℚ) :
    roundTiesEven y = ⌊y⌋ ∧ y - ⌊y⌋ ≤ 1 / 2 ∨ roundTiesEven y = ⌊y⌋ + 1 ∧ 1 / 2 ≤ y - ⌊y⌋ := by
  unfold roundTiesEven
  simp only []
  split
  · left; exact ⟨rfl, by linarith⟩
  · split
    · right; exact ⟨rfl, by linarith⟩
    · have h : y - ⌊y⌋ = 1 / 2 := by linarith
      split
      · left; exact ⟨rfl, by linarith⟩
      · right; exact ⟨rfl, by linarith⟩

/-- No integer is nearer to `y` than `roundTiesEven y`. -/
theorem roundTiesEven_nearest (y : ℚ) (z : ℤ) :
    |(roundTiesEven y : ℚ) - y| ≤ |(z : ℚ) - y| := by
  have h1 := Int.floor_le y
  have h2 := Int.lt_floor_add_one y
  rcases le_or_lt z ⌊y⌋ with hz | hz
  · have hz' : (z : ℚ) ≤ ⌊y⌋ := by exact_mod_cast hz
    rcases roundTiesEven_cases y with ⟨h, hh⟩ | ⟨h, hh⟩
    · rw [h, abs_le]; constructor
      · rw [abs_of_nonpos (by linarith)]; linarith
      · rw [abs_of_nonpos (by linarith)]; linarith
    · rw [h, abs_le]; push_cast; constructor
      · rw [abs_of_nonpos (by linarith)]; linarith
      · rw [abs_of_nonpos (by linarith)]; linarith
  · have hz' : (⌊y⌋ : ℚ) + 1 ≤ z := by exact_mod_cast hz
    rcases roundTiesEven_cases y with ⟨h, hh⟩ | ⟨h, hh⟩
    · rw [h, abs_le]; constructor
      · rw [abs_of_nonneg (by linarith)]; linarith
      · rw [abs_of_nonneg (by linarith)]; linarith
    · rw [h, abs_le]; push_cast; constructor
      · rw [abs_of_nonneg (by linarith)]; linarith
      · rw [abs_of_nonneg (by linarith)]; linarith

theorem roundTiesEven_intCast (z : ℤ) : roundTiesEven (z : ℚ) = z := by
  have h := roundTiesEven_nearest (z : ℚ) z
  simp only [sub_self, abs_zero] at h
  have h' := abs_nonpos_iff.1 h
  exact_mod_cast sub_eq_zero.1 h'

/-- The spacing of the `float64` grid around `x`. -/
theorem toFloat64_eq (x : ℚ) (hx : x ≠ 0) :
    toFloat64 x = roundTiesEven (x / 2 ^ (Int.log 2 |x| - 52)) * 2 ^ (Int.log 2 |x| - 52) := by
  simp [toFloat64, hx]

/-- No point of the grid around `x` is nearer to `x` than `toFloat64 x`. -/
theorem toFloat64_nearest (x : ℚ) (hx : x ≠ 0) (z : ℤ) :
    |toFloat64 x - x| ≤ |(z : ℚ) * 2 ^ (Int.log 2 |x| - 52) - x| := by
  rw [toFloat64_eq x hx]
  have hu : (0 : ℚ) < 2 ^ (Int.log 2 |x| - 52) := by positivity
  generalize (2 : ℚ) ^ (Int.log 2 |x| - 52) = u at hu ⊢
  have h := roundTiesEven_nearest (x / u) z
  have e1 : (roundTiesEven (x / u) : ℚ) * u - x = ((roundTiesEven (x / u) : ℚ) - x / u) * u := by
    field_simp
  have e2 : (z : ℚ) * u - x = ((z : ℚ) - x / u) * u := by field_simp
  rw [e1, e2, abs_mul, abs_mul]
  exact mul_le_mul_of_nonneg_right h (abs_nonneg u)

/-- A point of the grid around `x` is its own `float64`. -/
theorem toFloat64_grid (x : ℚ) (hx : x ≠ 0) (z : ℤ)
    (h : x = (z : ℚ) * 2 ^ (Int.log 2 |x| - 52)) : toFloat64 x = x := by
  have h1 := toFloat64_nearest x hx z
  rw [← h, sub_self, abs_zero] at h1
  exact sub_eq_zero.1 (abs_nonpos_iff.1 h1)

/-- A positive `x` and its `float64` lie between the same powers of two. -/
theorem toFloat64_bounds (x : ℚ) (hx : 0 < x) :
    (2 : ℚ) ^ Int.log 2 x ≤ toFloat64 x ∧ toFloat64 x ≤ 2 ^ (Int.log 2 x + 1) := by
  have h1 : (2 : ℚ) ^ Int.log 2 x ≤ x := by
    have := Int.zpow_log_le_self (b := 2) (by norm_num) hx
    simpa using this
  have h2 : x < (2 : ℚ) ^ (Int.log 2 x + 1) := by
    have := Int.lt_zpow_succ_log_self (b := 2) (by norm_num) x
    simpa using this
  rw [toFloat64_eq x hx.ne', abs_of_pos hx]
  have hu : (0 : ℚ) < 2 ^ (Int.log 2 x - 52) := by positivity
  have e1 : (2 : ℚ) ^ Int.log 2 x = 2 ^ (52 : ℤ) * 2 ^ (Int.log 2 x - 52) := by
    rw [← zpow_add₀ (by norm_num)]; congr 1; ring
  have e2 : (2 : ℚ) ^ (Int.log 2 x + 1) = 2 ^ (53 : ℤ) * 2 ^ (Int.log 2 x - 52) := by
    rw [← zpow_add₀ (by norm_num)]; congr 1; ring
  rw [e1] at h1
  rw [e2] at h2
  rw [e1, e2]
  clear e1 e2
  generalize (2 : ℚ) ^ (Int.log 2 x - 52) = u at *
  have hy1 : (2 : ℚ) ^ (52 : ℤ) ≤ x / u := by rw [le_div_iff₀ hu]; exact h1
  have hy2 : x / u < (2 : ℚ) ^ (53 : ℤ) := by rw [div_lt_iff₀ hu]; exact h2
  have hf1 : (2 : ℤ) ^ 52 ≤ ⌊x / u⌋ := by
    rw [Int.le_floor]; push_cast; exact_mod_cast hy1
  have hf2 : ⌊x / u⌋ < (2 : ℤ) ^ 53 := by
    rw [Int.floor_lt]; push_cast; exact_mod_cast hy2
  have hr : (2 : ℤ) ^ 52 ≤ roundTiesEven (x / u) ∧ roundTiesEven (x / u) ≤ (2 : ℤ) ^ 53 := by
    rcases roundTiesEven_cases (x / u) with ⟨h, -⟩ | ⟨h, -⟩ <;> rw [h] <;> omega
  constructor
  · apply mul_le_mul_of_nonneg_right _ hu.le
    exact_mod_cast hr.1
  · apply mul_le_mul_of_nonneg_right _ hu.le
    exact_mod_cast hr.2

/-- Integers up to `2^53` are `float64` values. -/
theorem toFloat64_natCast (n : ℕ) (h : n ≤ 2 ^ 53) : toFloat64 (n : ℚ) = n := by
  rcases Nat.eq_zero_or_pos n with rfl | hn
  · simp [toFloat64]
  have hx : (n : ℚ) ≠ 0 := by exact_mod_cast hn.ne'
  have hlog : Int.log 2 |(n : ℚ)| = (Nat.log 2 n : ℤ) := by
    rw [abs_of_nonneg (by positivity)]
    exact Int.log_natCast 2 n
  have hk1 : 2 ^ Nat.log 2 n ≤ n := Nat.pow_log_le_self 2 hn.ne'
  have hk : Nat.log 2 n ≤ 53 := by
    by_contra hc
    have : 2 ^ 54 ≤ 2 ^ Nat.log 2 n := Nat.pow_le_pow_right (by norm_num) (by omega)
    omega
  rcases Nat.lt_or_ge (Nat.log 2 n) 53 with hlt | hge
  · apply toFloat64_grid _ hx ((n : ℤ) * 2 ^ (52 - Nat.log 2 n))
    rw [hlog]
    have e : ((2 : ℚ) ^ (52 - Nat.log 2 n)) * 2 ^ ((Nat.log 2 n : ℤ) - 52) = 1 := by
      rw [← zpow_natCast, ← zpow_add₀ (by norm_num)]
      have : ((52 - Nat.log 2 n : ℕ) : ℤ) + ((Nat.log 2 n : ℤ) - 52) = 0 := by omega
      rw [this, zpow_zero]
    push_cast
    rw [mul_assoc, e, mul_one]
  · have hk53 : Nat.log 2 n = 53 := by omega
    have hn53 : n = 2 ^ 53 := by
      rw [hk53] at hk1
      omega
    apply toFloat64_grid _ hx ((2 : ℤ) ^ 52)
    rw [hlog, hk53, hn53]
    norm_num

/-- An integer above `2^53` has a `float64` of at least `2^53`. -/
theorem toFloat64_large (p : ℕ) (h : 2 ^ 53 ≤ p) : (2 : ℚ) ^ 53 ≤ toFloat64 (p : ℚ) := by
  have hp : 0 < p := by
    have : 0 < 2 ^ 53 := by norm_num
    omega
  have hpos : (0 : ℚ) < p := by exact_mod_cast hp
  have hb := (toFloat64_bounds (p : ℚ) hpos).1
  have hlog : Int.log 2 (p : ℚ) = (Nat.log 2 p : ℤ) := Int.log_natCast 2 p
  have hk : 53 ≤ Nat.log 2 p := Nat.le_log_of_pow_le (by norm_num) h
  rw [hlog, zpow_natCast] at hb
  refine le_trans ?_ hb
  exact pow_le_pow_right₀ (by norm_num) hk

/-- A quotient strictly between 0 and 1 has a `float64` in `(0, 1]`. -/
theorem ceil_toFloat64_of_lt_one (x : ℚ) (h0 : 0 < x) (h1 : x < 1) : ⌈toFloat64 x⌉ = 1 := by
  obtain ⟨hb1, hb2⟩ := toFloat64_bounds x h0
  have hl : (2 : ℚ) ^ Int.log 2 x ≤ x := by
    have := Int.zpow_log_le_self (b := 2) (by norm_num) h0
    simpa using this
  have he : Int.log 2 x < 0 := by
    by_contra hc
    have : (1 : ℚ) ≤ 2 ^ Int.log 2 x := one_le_zpow₀ (by norm_num) (by omega)
    linarith
  have hu : (2 : ℚ) ^ (Int.log 2 x + 1) ≤ 1 := zpow_le_one_of_nonpos₀ (by norm_num) (by omega)
  have hpos : (0 : ℚ) < 2 ^ Int.log 2 x := by positivity
  rw [Int.ceil_eq_iff]
  constructor
  · push_cast; linarith
  · push_cast; linarith

/-- The `float64` quotient of two integers, the dividend below `2^53`, has the
ceiling of the exact quotient. -/
theorem ceil_toFloat64_quotient (n p : ℕ) (hn : n < 2 ^ 53) (hp : 0 < p) :
    ⌈toFloat64 ((n : ℚ) / p)⌉ = ⌈(n : ℚ) / p⌉ := by
  have hpq : (0 : ℚ) < p := by exact_mod_cast hp
  have hdm := Nat.div_add_mod n p
  have hr := Nat.mod_lt n hp
  have hnq : (n : ℚ) = p * (n / p : ℕ) + (n % p : ℕ) := by exact_mod_cast hdm.symm
  rcases Nat.eq_zero_or_pos n with rfl | hn0
  · simp [toFloat64]
  have hx0 : (0 : ℚ) < (n : ℚ) / p := div_pos (by exact_mod_cast hn0) hpq
  rcases Nat.eq_zero_or_pos (n / p) with hk | hk
  · -- the quotient is below 1
    have hlt : n < p := by
      rcases Nat.lt_or_ge n p with h | h
      · exact h
      · have := Nat.div_pos h hp
        omega
    have hx1 : (n : ℚ) / p < 1 := by
      rw [div_lt_one hpq]; exact_mod_cast hlt
    rw [ceil_toFloat64_of_lt_one _ hx0 hx1, eq_comm, Int.ceil_eq_iff]
    constructor
    · push_cast; linarith
    · push_cast; linarith
  · -- the quotient is at least 1
    have hfloor : ⌊(n : ℚ) / p⌋₊ = n / p := Nat.floor_div_eq_div n p
    have hrq : (n : ℚ) / p = (n / p : ℕ) + (n % p : ℕ) / p := by
      rw [hnq]; field_simp; ring
    have hx1 : (1 : ℚ) ≤ (n : ℚ) / p := by
      rw [le_div_iff₀ hpq, one_mul]
      have : p ≤ n := by
        by_contra hc
        rw [Nat.div_eq_of_lt (by omega)] at hk
        omega
      exact_mod_cast this
    have hlog : Int.log 2 |(n : ℚ) / p| = (Nat.log 2 (n / p) : ℤ) := by
      rw [abs_of_pos hx0, Int.log_of_one_le_right 2 hx1, hfloor]
    have hm1 : 2 ^ Nat.log 2 (n / p) ≤ n / p := Nat.pow_log_le_self 2 hk.ne'
    have hkn : n / p ≤ n := Nat.div_le_self n p
    have hm : Nat.log 2 (n / p) ≤ 52 := by
      by_contra hc
      have : 2 ^ 53 ≤ 2 ^ Nat.log 2 (n / p) := Nat.pow_le_pow_right (by norm_num) (by omega)
      omega
    have hpow : 2 ^ Nat.log 2 (n / p) * 2 ^ (52 - Nat.log 2 (n / p)) = 2 ^ 52 := by
      rw [← pow_add]; congr 1; omega
    have hu : ((2 : ℚ) ^ ((Nat.log 2 (n / p) : ℤ) - 52)) *
        ((2 ^ (52 - Nat.log 2 (n / p)) : ℕ) : ℚ) = 1 := by
      push_cast
      rw [← zpow_natCast, ← zpow_add₀ (by norm_num)]
      have : ((Nat.log 2 (n / p) : ℤ) - 52) + ((52 - Nat.log 2 (n / p) : ℕ) : ℤ) = 0 := by omega
      rw [this, zpow_zero]
    have hpM : p < 2 * 2 ^ (52 - Nat.log 2 (n / p)) := by
      have h1 : p * 2 ^ Nat.log 2 (n / p) ≤ p * (n / p) := Nat.mul_le_mul_left p hm1
      have h2 : p * (n / p) ≤ n := Nat.mul_div_le n p
      have h3 : p * 2 ^ Nat.log 2 (n / p) <
          (2 * 2 ^ (52 - Nat.log 2 (n / p))) * 2 ^ Nat.log 2 (n / p) := by
        have : (2 * 2 ^ (52 - Nat.log 2 (n / p))) * 2 ^ Nat.log 2 (n / p) = 2 ^ 53 := by
          rw [mul_assoc, mul_comm (2 ^ (52 - Nat.log 2 (n / p))), hpow]; norm_num
        omega
      exact Nat.lt_of_mul_lt_mul_right h3
    have hnear := toFloat64_nearest ((n : ℚ) / p) hx0.ne'
    rw [hlog] at hnear
    generalize hM : 2 ^ (52 - Nat.log 2 (n / p)) = M at hu hpM hnear
    generalize hU : (2 : ℚ) ^ ((Nat.log 2 (n / p) : ℤ) - 52) = u at hu hnear
    generalize hK : n / p = k at hrq hk hnear
    generalize hR : n % p = r at hrq hr
    generalize hQ : toFloat64 ((n : ℚ) / p) = Q at hnear
    generalize hX : (n : ℚ) / p = x at hrq hnear hx0
    have hMpos : (0 : ℚ) < M := by
      rcases Nat.eq_zero_or_pos M with h | h
      · rw [h] at hu; simp at hu
      · exact_mod_cast h
    have hupos : 0 < u := by
      by_contra hc
      have : u * M ≤ 0 := mul_nonpos_of_nonpos_of_nonneg (not_lt.1 hc) hMpos.le
      linarith
    rcases Nat.eq_zero_or_pos r with hr0 | hr0
    · -- the quotient is an integer
      rw [hr0] at hrq
      simp only [Nat.cast_zero, zero_div, add_zero] at hrq
      have h := hnear ((k : ℤ) * M)
      have e : (((k : ℤ) * (M : ℤ) : ℤ) : ℚ) * u = x := by
        push_cast; rw [hrq, mul_assoc, mul_comm (M : ℚ), hu, mul_one]
      rw [e, sub_self, abs_zero] at h
      rw [sub_eq_zero.1 (abs_nonpos_iff.1 h)]
    · -- the remainder is positive
      have hd0 : (0 : ℚ) < (r : ℚ) / p := div_pos (by exact_mod_cast hr0) hpq
      have hd1 : (r : ℚ) / p < 1 := by rw [div_lt_one hpq]; exact_mod_cast hr
      have hud : u < 2 * ((r : ℚ) / p) := by
        have h1 : u = 1 / M := by rw [eq_div_iff hMpos.ne']; exact hu
        have h2 : (p : ℚ) < 2 * M := by exact_mod_cast hpM
        have h3 : (1 : ℚ) ≤ r := by exact_mod_cast hr0
        rw [h1, div_lt_iff₀ hMpos]
        have h4 : 2 * ((r : ℚ) / p) * M = (2 * r * M) / p := by ring
        rw [h4, lt_div_iff₀ hpq, one_mul]
        nlinarith
      have hup : Q ≤ k + 1 := by
        have h := hnear (((k : ℤ) + 1) * M)
        have e : ((((k : ℤ) + 1) * (M : ℤ) : ℤ) : ℚ) * u = k + 1 := by
          push_cast; rw [mul_assoc, mul_comm (M : ℚ), hu, mul_one]
        rw [e, abs_of_nonneg (by linarith : (0 : ℚ) ≤ (k : ℚ) + 1 - x)] at h
        have := le_abs_self (Q - x)
        linarith
      have hlo : (k : ℚ) < Q := by
        by_contra hc
        have hc' : Q ≤ k := not_lt.1 hc
        have h := hnear ((k : ℤ) * M + 1)
        have e : ((((k : ℤ) * (M : ℤ) + 1 : ℤ)) : ℚ) * u = k + u := by
          push_cast; rw [add_mul, mul_assoc, mul_comm (M : ℚ), hu, mul_one, one_mul]
        rw [e] at h
        have h5 := neg_abs_le (Q - x)
        rcases le_total 0 ((k : ℚ) + u - x) with hs | hs
        · rw [abs_of_nonneg hs] at h; linarith
        · rw [abs_of_nonpos hs] at h; linarith
      have c1 : ⌈Q⌉ = (k : ℤ) + 1 :=
        Int.ceil_eq_iff.2 ⟨by push_cast; linarith, by push_cast; linarith⟩
      have c2 : ⌈x⌉ = (k : ℤ) + 1 :=
        Int.ceil_eq_iff.2 ⟨by push_cast; linarith, by push_cast; linarith⟩
      rw [c1, c2]

/-- The page count is the exact ceiling when the total is below `2^53`. -/
theorem totalPages_exact (total perPage : ℤ) (h0 : 0 ≤ total) (h1 : total < 2 ^ 53)
    (hp : 1 ≤ perPage) :
    services.totalPages total perPage = ⌈(total : ℚ) / (perPage : ℚ)⌉ := by
  obtain ⟨n, rfl⟩ := Int.eq_ofNat_of_zero_le h0
  obtain ⟨p, rfl⟩ := Int.eq_ofNat_of_zero_le (by omega : 0 ≤ perPage)
  have hn : n < 2 ^ 53 := by exact_mod_cast h1
  have hp0 : 0 < p := by omega
  have hpq : (0 : ℚ) < p := by exact_mod_cast hp0
  have hnq : (n : ℚ) < 2 ^ 53 := by exact_mod_cast hn
  simp only [services.totalPages, Int.cast_natCast]
  have hval : ⌈toFloat64 (toFloat64 (n : ℚ) / toFloat64 (p : ℚ))⌉ = ⌈(n : ℚ) / p⌉ := by
    rw [toFloat64_natCast n hn.le]
    rcases Nat.lt_or_ge (2 ^ 53) p with hbig | hsmall
    · have hB := toFloat64_large p hbig.le
      have hpbig : (2 : ℚ) ^ 53 < p := by exact_mod_cast hbig
      rcases Nat.eq_zero_or_pos n with rfl | hn0
      · simp [toFloat64]
      · have hn0q : (0 : ℚ) < n := by exact_mod_cast hn0
        have hBpos : (0 : ℚ) < toFloat64 (p : ℚ) := by linarith
        have c1 : ⌈toFloat64 ((n : ℚ) / toFloat64 (p : ℚ))⌉ = 1 :=
          ceil_toFloat64_of_lt_one _ (div_pos hn0q hBpos)
            (by rw [div_lt_one hBpos]; linarith)
        have hx1 : (n : ℚ) / p < 1 := by rw [div_lt_one hpq]; linarith
        have hx0 : (0 : ℚ) < (n : ℚ) / p := div_pos hn0q hpq
        have c2 : ⌈(n : ℚ) / p⌉ = 1 :=
          Int.ceil_eq_iff.2 ⟨by push_cast; linarith, by push_cast; linarith⟩
        rw [c1, c2]
    · rw [toFloat64_natCast p hsmall]
      exact ceil_toFloat64_quotient n p hn hp0
  rw [hval]
  apply wrapInt_id
  · have : (0 : ℤ) ≤ ⌈(n : ℚ) / p⌉ := Int.ceil_nonneg (by positivity)
    omega
  · have h2 : ⌈(n : ℚ) / p⌉ ≤ (n : ℤ) := by
      rw [Int.ceil_le]
      push_cast
      rw [div_le_iff₀ hpq]
      have : (1 : ℚ) ≤ p := by exact_mod_cast hp0
      have hn0 : (0 : ℚ) ≤ n := by positivity
      nlinarith
    have : (n : ℤ) < 2 ^ 53 := by exact_mod_cast hn
    omega

/-- Beyond `2^53` the conversion of the total already rounds. -/
theorem totalPages_inexact : services.totalPages (2 ^ 53 + 1) 1 = 2 ^ 53 := by
  have hlog : Int.log 2 |((2 : ℚ) ^ 53 + 1)| = 53 := by
    rw [abs_of_pos (by norm_num)]
    have : ((2 : ℚ) ^ 53 + 1) = ((2 ^ 53 + 1 : ℕ) : ℚ) := by norm_num
    rw [this, Int.log_natCast]
    have : Nat.log 2 (2 ^ 53 + 1) = 53 := by
      rw [Nat.log_eq_iff (Or.inl (by norm_num))]
      norm_num
    rw [this]; rfl
  have ha : toFloat64 ((2 : ℚ) ^ 53 + 1) = 2 ^ 53 := by
    rw [toFloat64_eq _ (by norm_num), hlog]
    have hfl : ⌊((2 : ℚ) ^ 53 + 1) / 2 ^ ((53 : ℤ) - 52)⌋ = 2 ^ 52 := by
      rw [Int.floor_eq_iff]; norm_num
    have hr : roundTiesEven (((2 : ℚ) ^ 53 + 1) / 2 ^ ((53 : ℤ) - 52)) = 2 ^ 52 := by
      unfold roundTiesEven
      simp only [hfl]
      norm_num
    rw [hr]
    norm_num
  have hb : toFloat64 (1 : ℚ) = 1 := by
    have := toFloat64_natCast 1 (by norm_num)
    simpa using this
  have hc : toFloat64 ((2 : ℚ) ^ 53) = 2 ^ 53 := by
    have := toFloat64_natCast (2 ^ 53) le_rfl
    simpa using this
  have e : (((2 ^ 53 + 1 : ℤ)) : ℚ) = (2 : ℚ) ^ 53 + 1 := by norm_num
  simp only [services.totalPages, e, Int.cast_one, ha, hb, div_one, hc]
  have : ⌈(2 : ℚ) ^ 53⌉ = 2 ^ 53 := by
    rw [Int.ceil_eq_iff]; norm_num
  rw [this]
  exact wrapInt_id _ (by norm_num) (by norm_num)

/-! ## The pagination metadata of `ListTenants` -/

/-- `ListTenants` succeeds when neither the count nor the page query fails. -/
theorem listTenants_ok (s : services.TenantService) (w : World) (page perPage : Int)
    (hf : w.fault = none) (hf2 : (w.emit Call.dbCount true).fault = none) :
    ∃ r, (services.ListTenants s w page perPage).1 = .ok r := by
  simp only [services.ListTenants, database.GetAllTenants, hf, hf2]
  exact ⟨_, rfl⟩

/-- Claim C12 fails as stated: with `2^53 + 1` stored tenants and one tenant per
page, `ListTenants` reports `MaxPage = 2^53`, one page short of the total. -/
theorem listTenants_maxPage_inexact :
    (services.ListTenants demoService (demoCrowd (2 ^ 53 + 1)) 1 1).1.toOption.map
        (fun r => r.2) =
      some { Total := 2 ^ 53 + 1, Page := 1, PerPage := 1, MaxPage := 2 ^ 53 } ∧
    ((2 : Int) ^ 53) * 1 < 2 ^ 53 + 1 := by
  obtain ⟨r, hr⟩ := listTenants_ok demoService (demoCrowd (2 ^ 53 + 1)) 1 1 rfl rfl
  obtain ⟨h1, h2, h3, h4, -⟩ := listTenants_meta _ _ _ _ r hr
  have hlen : (demoCrowd (2 ^ 53 + 1)).store.rows.length = 2 ^ 53 + 1 := by
    simp [demoCrowd]
  have hT : r.2.Total = 2 ^ 53 + 1 := by
    rw [h1, hlen]
    exact wrapInt_id _ (by norm_num) (by norm_num)
  have hP : r.2.PerPage = 1 := by simpa using h3
  have hG : r.2.Page = 1 := by simpa using h2
  have hM : r.2.MaxPage = 2 ^ 53 := by
    rw [h4, hT, hP]
    exact totalPages_inexact
  have hr2 : r.2 = { Total := 2 ^ 53 + 1, Page := 1, PerPage := 1, MaxPage := 2 ^ 53 } := by
    rcases r with ⟨ts, ⟨T, G, P, M⟩⟩
    simp only at hT hP hG hM
    rw [hT, hP, hG, hM]
  refine ⟨?_, by norm_num⟩
  rw [hr]
  simp only [Except.toOption, Option.map_some', hr2]

/-- Claim C12, amended: when the Store holds fewer than `2^53` tenants, the
`MaxPage` that `ListTenants` reports is the exact ceiling of `Total / PerPage`,
the smallest `m` with `m * PerPage ≥ Total`; `Total` is the number of stored
tenants and `PerPage` is at least 1. -/
theorem listTenants_maxPage_exact (s : services.TenantService) (w : World) (page perPage : Int)
    (r : List models.Tenant × models.PaginationMeta)
    (h : (services.ListTenants s w page perPage).1 = .ok r)
    (hsize : w.store.rows.length < 2 ^ 53) :
    r.2.Total = w.store.rows.length ∧ 1 ≤ r.2.PerPage ∧
      r.2.MaxPage = ⌈(r.2.Total : ℚ) / (r.2.PerPage : ℚ)⌉ ∧
      r.2.Total ≤ r.2.MaxPage * r.2.PerPage ∧
      ∀ m : Int, r.2.Total ≤ m * r.2.PerPage → r.2.MaxPage ≤ m := by
  obtain ⟨h1, -, h3, h4, -⟩ := listTenants_meta s w page perPage r h
  have hlen : (w.store.rows.length : Int) < 2 ^ 53 := by exact_mod_cast hsize
  have hT : r.2.Total = w.store.rows.length := by
    rw [h1]
    exact wrapInt_id _ (by omega) (by omega)
  have hP : 1 ≤ r.2.PerPage := by
    rw [h3]; split <;> omega
  have hM : r.2.MaxPage = ⌈(r.2.Total : ℚ) / (r.2.PerPage : ℚ)⌉ := by
    rw [h4]
    exact totalPages_exact _ _ (by rw [hT]; omega) (by rw [hT]; exact hlen) hP
  have hPq : (0 : ℚ) < (r.2.PerPage : ℚ) := by exact_mod_cast (by omega : 0 < r.2.PerPage)
  refine ⟨hT, hP, hM, ?_, ?_⟩
  · have := Int.le_ceil ((r.2.Total : ℚ) / (r.2.PerPage : ℚ))
    rw [← hM, div_le_iff₀ hPq] at this
    exact_mod_cast this
  · intro m hm
    rw [hM, Int.ceil_le, div_le_iff₀ hPq]
    exact_mod_cast hm

/-- Twenty-three tenants, ten per page: three pages; no tenant: no page. -/
theorem listTenants_maxPage_exact_witness :
    ((services.ListTenants demoService (demoCrowd 23) 4 10).1 =
        .ok ([], { Total := 23, Page := 4, PerPage := 10,
                   MaxPage := services.totalPages 23 10 }) ∧
      services.totalPages 23 10 = ⌈((23 : Int) : ℚ) / ((10 : Int) : ℚ)⌉ ∧
      ⌈((23 : Int) : ℚ) / ((10 : Int) : ℚ)⌉ = 3) ∧
    ((services.ListTenants demoService demoWorld 1 10).1 =
        .ok ([], { Total := 0, Page := 1, PerPage := 10,
                   MaxPage := services.totalPages 0 10 }) ∧
      services.totalPages 0 10 = ⌈((0 : Int) : ℚ) / ((10 : Int) : ℚ)⌉ ∧
      ⌈((0 : Int) : ℚ) / ((10 : Int) : ℚ)⌉ = 0) :=
  ⟨⟨rfl, (listTenants_maxPage_exact demoService (demoCrowd 23) 4 10
        ([], { Total := 23, Page := 4, PerPage := 10, MaxPage := services.totalPages 23 10 })
        rfl (by decide)).2.2.1,
      by rw [Int.ceil_eq_iff]; norm_num⟩,
    ⟨rfl, (listTenants_maxPage_exact demoService demoWorld 1 10
        ([], { Total := 0, Page := 1, PerPage := 10, MaxPage := services.totalPages 0 10 })
        rfl (by decide)).2.2.1,
      by norm_num⟩⟩

/-- Claim C13 fails as stated: `ListTenants(0, 0)` queries and reports page 1
with 10 tenants per page, not 1 per page. -/
theorem listTenants_default_page_size :
    (services.ListTenants demoService demoWorld 0 0).1.toOption.map
        (fun r => (r.2.Page, r.2.PerPage)) = some (1, 10) ∧
    demoWorld.newCalls (services.ListTenants demoService demoWorld 0 0).2 =
      [⟨Call.dbCount, true⟩, ⟨Call.dbFind 10 0, true⟩] ∧
    max (0 : Int) 1 ≠ 10 :=
  ⟨rfl, rfl, by decide⟩

/-- Claim C13, amended: the page `ListTenants` queries and reports is
`max(page, 1)`; the page size is `perPage` when that is at least 1 and 10
otherwise.  Inputs of at least 1 are unchanged, the page size is at least 1,
and it is the divisor of the `MaxPage` computation. -/
theorem listTenants_page_floor_size_default (s : services.TenantService) (w : World)
    (page perPage : Int) (r : List models.Tenant × models.PaginationMeta)
    (h : (services.ListTenants s w page perPage).1 = .ok r) :
    r.2.Page = max page 1 ∧
      r.2.PerPage = (if perPage < 1 then 10 else perPage) ∧
      (1 ≤ page → r.2.Page = page) ∧ (1 ≤ perPage → r.2.PerPage = perPage) ∧
      1 ≤ r.2.Page ∧ 1 ≤ r.2.PerPage ∧
      ⟨Call.dbFind r.2.PerPage (wrapInt ((r.2.Page - 1) * r.2.PerPage)), true⟩ ∈
        w.newCalls (services.ListTenants s w page perPage).2 ∧
      r.2.MaxPage = services.totalPages r.2.Total r.2.PerPage := by
  obtain ⟨-, h2, h3, h4, h5⟩ := listTenants_meta s w page perPage r h
  have hG : r.2.Page = max page 1 := by
    rw [h2]; split <;> omega
  refine ⟨hG, h3, fun hp => ?_, fun hp => ?_, ?_, ?_, h5, h4⟩
  · rw [hG]; omega
  · rw [h3, if_neg (by omega)]
  · rw [hG]; omega
  · rw [h3]; split <;> omega

/-- The call `ListTenants(0, 0)` on the empty deployment. -/
theorem listTenants_page_floor_size_default_witness :
    (services.ListTenants demoService demoWorld 0 0).1 =
        .ok ([], { Total := 0, Page := 1, PerPage := 10,
                   MaxPage := services.totalPages 0 10 }) ∧
      (1 : Int) = max 0 1 ∧ (10 : Int) = (if (0 : Int) < 1 then 10 else 0) ∧
      ⟨Call.dbFind 10 (wrapInt ((1 - 1) * 10)), true⟩ ∈
        demoWorld.newCalls (services.ListTenants demoService demoWorld 0 0).2 :=
  ⟨rfl,
    (listTenants_page_floor_size_default demoService demoWorld 0 0
      ([], { Total := 0, Page := 1, PerPage := 10, MaxPage := services.totalPages 0 10 }) rfl).1,
    (listTenants_page_floor_size_default demoService demoWorld 0 0
      ([], { Total := 0, Page := 1, PerPage := 10, MaxPage := services.totalPages 0 10 }) rfl).2.1,
    (listTenants_page_floor_size_default demoService demoWorld 0 0
      ([], { Total := 0, Page := 1, PerPage := 10, MaxPage := services.totalPages 0 10 }) rfl).2.2.2.2.2.2.1⟩
/-! ## The substring test of the handlers -/

theorem slice_some {α : Type} (s : List α) (i n : Nat) (h : i + n ≤ s.length) :
    handlers.slice s (i : Int) ((i : Int) + (n : Int)) = some ((s.drop i).take n) := by
  unfold handlers.slice
  rw [if_pos ⟨by omega, by omega, by omega⟩]
  congr 2
  omega

/-- An occurrence of `substr` in `s` is an index where it can be read off. -/
theorem infix_iff_exists_index {α : Type} (s substr : List α) :
    substr <:+: s ↔
      ∃ i : Nat, i + substr.length ≤ s.length ∧ (s.drop i).take substr.length = substr := by
  constructor
  · rintro ⟨a, b, rfl⟩
    refine ⟨a.length, by simp, ?_⟩
    simp
  · rintro ⟨i, -, h⟩
    refine ⟨s.take i, (s.drop i).drop substr.length, ?_⟩
    have e1 := List.take_append_drop substr.length (s.drop i)
    rw [h] at e1
    rw [List.append_assoc, e1, List.take_append_drop]

/-- The loop started at `i` finds exactly the occurrences at index `i` or later. -/
theorem containsMiddleFrom_spec {α : Type} [DecidableEq α] (s substr : List α)
    (hlen : substr.length ≤ s.length) :
    ∀ (fuel i : Nat), i ≤ s.length - substr.length + 1 →
      s.length - substr.length + 2 ≤ fuel + i →
      ∃ b, handlers.containsMiddleFrom s substr fuel (i : Int) = some b ∧
        (b = true ↔ ∃ j : Nat, i ≤ j ∧ j + substr.length ≤ s.length ∧
          (s.drop j).take substr.length = substr) := by
  intro fuel
  induction fuel with
  | zero => intro i h1 h2; omega
  | succ fuel ih =>
    intro i h1 h2
    unfold handlers.containsMiddleFrom
    by_cases hi : (i : Int) ≤ (s.length : Int) - substr.length
    · rw [if_pos hi, slice_some s i substr.length (by omega)]
      simp only []
      by_cases ht : (s.drop i).take substr.length = substr
      · rw [if_pos ht]
        exact ⟨true, rfl, by simp; exact ⟨i, le_rfl, by omega, ht⟩⟩
      · rw [if_neg ht]
        obtain ⟨b, hb, hiff⟩ := ih (i + 1) (by omega) (by omega)
        refine ⟨b, by exact_mod_cast hb, hiff.trans ⟨?_, ?_⟩⟩
        · rintro ⟨j, hj, hj2, hj3⟩
          exact ⟨j, by omega, hj2, hj3⟩
        · rintro ⟨j, hj, hj2, hj3⟩
          rcases Nat.eq_or_lt_of_le hj with rfl | hlt
          · exact absurd hj3 ht
          · exact ⟨j, hlt, hj2, hj3⟩
    · rw [if_neg hi]
      refine ⟨false, rfl, by simp; intro j hj hj2; omega⟩

theorem containsMiddle_spec {α : Type} [DecidableEq α] (s substr : List α)
    (hlen : substr.length ≤ s.length) :
    ∃ b, handlers.containsMiddle s substr = some b ∧ (b = true ↔ substr <:+: s) := by
  obtain ⟨b, hb, hiff⟩ := containsMiddleFrom_spec s substr hlen (s.length + 2) 0 (by omega)
    (by omega)
  refine ⟨b, by simpa [handlers.containsMiddle] using hb, ?_⟩
  rw [hiff, infix_iff_exists_index]
  simp

/-- Claim C14: `contains(s, substr)` never slices out of bounds, and its result
is true exactly when `substr` occurs in `s` as a contiguous run of bytes. -/
theorem contains_iff_substring {α : Type} [DecidableEq α] (s substr : List α) :
    ∃ b, handlers.contains s substr = some b ∧ (b = true ↔ substr <:+: s) := by
  unfold handlers.contains
  by_cases h1 : (s.length : Int) ≥ substr.length
  swap
  · rw [if_pos h1]
    refine ⟨false, rfl, by simp; intro hin; exact h1 (by exact_mod_cast hin.length_le)⟩
  rw [if_neg (not_not.2 h1)]
  by_cases h2 : s = substr
  · rw [if_pos h2]
    exact ⟨true, rfl, by simp [h2]⟩
  rw [if_neg h2]
  by_cases h3 : (s.length : Int) > substr.length
  swap
  · rw [if_pos h3]
    refine ⟨false, rfl, by simp; intro hin; exact h2 (hin.eq_of_length (by omega)).symm⟩
  rw [if_neg (not_not.2 h3)]
  have hlen : substr.length < s.length := by omega
  have hs1 : handlers.slice s 0 substr.length = some (s.take substr.length) := by
    have := slice_some s 0 substr.length (by omega)
    simpa using this
  have hs2 : handlers.slice s ((s.length : Int) - substr.length) s.length =
      some (s.drop (s.length - substr.length)) := by
    have := slice_some s (s.length - substr.length) substr.length (by omega)
    have e1 : ((s.length - substr.length : ℕ) : Int) = (s.length : Int) - substr.length := by
      omega
    have e2 : (s.length : Int) - substr.length + substr.length = s.length := by omega
    rw [e1, e2] at this
    rw [this, List.take_of_length_le (by simp; omega)]
  rw [hs1]
  simp only []
  by_cases h4 : s.take substr.length = substr
  · rw [if_pos h4]
    refine ⟨true, rfl, by simp; rw [← h4]; exact (List.take_prefix _ _).isInfix⟩
  rw [if_neg h4, hs2]
  simp only []
  by_cases h5 : s.drop (s.length - substr.length) = substr
  · rw [if_pos h5]
    refine ⟨true, rfl, by simp; rw [← h5]; exact (List.drop_suffix _ _).isInfix⟩
  rw [if_neg h5]
  by_cases h6 : (s.length : Int) > substr.length + 1
  swap
  · rw [if_pos h6]
    refine ⟨false, rfl, ?_⟩
    simp only [Bool.false_eq_true, false_iff, infix_iff_exists_index]
    rintro ⟨i, hi, hm⟩
    have hi01 : i = 0 ∨ i = 1 := by omega
    rcases hi01 with rfl | rfl
    · exact h4 (by simpa using hm)
    · have e : s.length - substr.length = 1 := by omega
      rw [e] at h5
      rw [List.take_of_length_le (by simp; omega)] at hm
      exact h5 hm
  rw [if_neg (not_not.2 h6)]
  exact containsMiddle_spec s substr hlen.le

/-! ## `CreateTenant` around the Store insert -/

/-- `CreateTenant` issues no insert unless it reaches the state `beforeInsert`
returns. -/
theorem createTenant_no_insert (s : services.TenantService) (w : World) (name : String)
    (h : services.beforeInsert s w name = none) (port : Int) (b : Bool) :
    ⟨Call.dbCreate name port, b⟩ ∉ w.newCalls (services.CreateTenant s w name).2 := by
  intro hmem
  cases h1 : (database.GetTenantByName w name).1 with
  | ok t =>
    simp only [services.CreateTenant, h1] at hmem
    simp [World.newCalls] at hmem
  | error e1 =>
    cases h2 : (database.GetNextAvailablePort (database.GetTenantByName w name).2).1 with
    | error e2 =>
      simp only [services.CreateTenant, h1, h2] at hmem
      simp [World.newCalls] at hmem
    | ok p =>
      cases h3 : (os.MkdirAll (database.GetNextAvailablePort (database.GetTenantByName w name).2).2
          (s.baseDir ++ ["tenants", name] ++ ["files"])).1 with
      | some e3 =>
        simp only [services.CreateTenant, h1, h2, h3] at hmem
        simp [World.newCalls] at hmem
      | none =>
        cases h4 : (os.MkdirAll (os.MkdirAll (database.GetNextAvailablePort (database.GetTenantByName w name).2).2 (s.baseDir ++ ["tenants", name] ++ ["files"])).2
            (s.baseDir ++ ["tenants", name] ++ ["config"])).1 with
        | some e4 =>
          simp only [services.CreateTenant, h1, h2, h3, h4] at hmem
          simp [World.newCalls] at hmem
        | none =>
          cases h5 : (utils.CreateAndStartContainer (os.MkdirAll (os.MkdirAll (database.GetNextAvailablePort (database.GetTenantByName w name).2).2 (s.baseDir ++ ["tenants", name] ++ ["files"])).2 (s.baseDir ++ ["tenants", name] ++ ["config"])).2 name p
              (s.baseDir ++ ["tenants", name] ++ ["files"])
              (s.baseDir ++ ["tenants", name] ++ ["config"])).1 with
          | error e5 =>
            obtain ⟨l5, hl5, g5⟩ := CreateAndStartContainer_trace (os.MkdirAll (os.MkdirAll (database.GetNextAvailablePort (database.GetTenantByName w name).2).2 (s.baseDir ++ ["tenants", name] ++ ["files"])).2 (s.baseDir ++ ["tenants", name] ++ ["config"])).2 name p
              (s.baseDir ++ ["tenants", name] ++ ["files"])
              (s.baseDir ++ ["tenants", name] ++ ["config"])
            simp only [services.CreateTenant, h1, h2, h3, h4, h5] at hmem
            simp only [World.newCalls, removeAll_trace, hl5] at hmem
            simp at hmem
            rcases g5 _ hmem with g | g | g | g | g | g | g <;> simp at g
          | ok cn =>
            simp only [services.beforeInsert, h1, h2, h3, h4, h5] at h
            simp at h
/-- What `beforeInsert` says of the state it returns: the calls made so far
include the successful container start, and the Store is untouched. -/
theorem beforeInsert_reached (s : services.TenantService) (w : World) (name : String)
    (port : Int) (w6 : World) (h : services.beforeInsert s w name = some (port, w6)) :
    (∃ l, w6.trace = w.trace ++ l ∧ ⟨Call.containerStart ("files_" ++ name), true⟩ ∈ l) ∧
      w6.store = w.store := by
  simp only [services.beforeInsert] at h
  split at h
  · simp at h
  · rename_i e1 h1
    split at h
    · simp at h
    · rename_i p h2
      split at h
      · simp at h
      · rename_i h3
        split at h
        · simp at h
        · rename_i h4
          split at h
          · simp at h
          · rename_i cn h5
            simp only [Option.some.injEq, Prod.mk.injEq] at h
            obtain ⟨hp, hw⟩ := h
            subst hp
            subst hw
            have hst := CreateAndStartContainer_started _ _ _ _ _ _ h5
            obtain ⟨l5, hl5, -⟩ := CreateAndStartContainer_trace
              (os.MkdirAll (os.MkdirAll (database.GetNextAvailablePort
                (database.GetTenantByName w name).2).2
                (s.baseDir ++ ["tenants", name] ++ ["files"])).2
                (s.baseDir ++ ["tenants", name] ++ ["config"])).2 name p
                (s.baseDir ++ ["tenants", name] ++ ["files"])
                (s.baseDir ++ ["tenants", name] ++ ["config"])
            rw [newCalls_eq _ _ l5 hl5] at hst
            obtain ⟨l6, hl6, -⟩ := GetContainerLogs_trace
              (utils.CreateAndStartContainer
                (os.MkdirAll (os.MkdirAll (database.GetNextAvailablePort
                  (database.GetTenantByName w name).2).2
                  (s.baseDir ++ ["tenants", name] ++ ["files"])).2
                  (s.baseDir ++ ["tenants", name] ++ ["config"])).2 name p
                  (s.baseDir ++ ["tenants", name] ++ ["files"])
                  (s.baseDir ++ ["tenants", name] ++ ["config"])).2 ("files_" ++ name)
            constructor
            · refine ⟨[⟨Call.dbGetByName name, false⟩, ⟨Call.dbMaxPort, true⟩,
                ⟨Call.mkdirAll (s.baseDir ++ ["tenants", name] ++ ["files"]), true⟩,
                ⟨Call.mkdirAll (s.baseDir ++ ["tenants", name] ++ ["config"]), true⟩] ++
                l5 ++ l6, ?_, ?_⟩
              · rw [hl6, hl5]
                simp only [mkdirAll_trace, dbMaxPort_trace, dbGetByName_trace, h1, h2, h3, h4,
                  succeeded]
                simp
              · simp [hst]
            · simp only [GetContainerLogs_store, CreateAndStartContainer_store,
                mkdirAll_store, dbMaxPort_store, dbGetByName_store]

/-- From the state `beforeInsert` returns, a failing insert makes `CreateTenant`
remove the container, the volume and the directory tree, in that order, and
return the persistence error. -/
theorem createTenant_of_failed_insert (s : services.TenantService) (w : World)
    (name : String) (port : Int) (w6 : World) (e : String)
    (h : services.beforeInsert s w name = some (port, w6))
    (hins : (database.CreateTenant w6 (services.newRow 0 name port)).1 = .error e) :
    services.CreateTenant s w name =
      (.error ("failed to save tenant to database: " ++ e),
        (os.RemoveAll (utils.RemoveVolume (utils.RemoveContainer
          (database.CreateTenant w6 (services.newRow 0 name port)).2 ("files_" ++ name)).2
          (name ++ "_settings_vol")).2 (s.baseDir ++ ["tenants", name])).2) := by
  simp only [services.beforeInsert] at h
  split at h
  · simp at h
  · rename_i e1 h1
    split at h
    · simp at h
    · rename_i p h2
      split at h
      · simp at h
      · rename_i h3
        split at h
        · simp at h
        · rename_i h4
          split at h
          · simp at h
          · rename_i cn h5
            simp only [Option.some.injEq, Prod.mk.injEq] at h
            obtain ⟨hp, hw⟩ := h
            subst hp
            subst hw
            simp only [services.newRow] at hins ⊢
            simp only [services.CreateTenant, h1, h2, h3, h4, h5, hins]

/-- Claim C1, amended: take a name with no Store record.  If `CreateTenant` gets
as far as the Store insert (the container was created and started), the insert
fails, and the container removal, the volume removal and the directory removal
succeed where `CreateTenant` issues them, then `CreateTenant` returns the
persistence error, its calls after the insert are the stop and removal of the
container, the removal of the volume and the removal of the directory tree,
and afterwards there is no container `files_<name>`, no volume
`<name>_settings_vol`, no directory at or below `<baseDir>/tenants/<name>` and
no Store record for the name. -/
theorem createTenant_persist_failure_compensated (s : services.TenantService) (w : World)
    (name : String) (port : Int) (w6 : World) (e : String)
    (hfresh : w.hasRecord name = false)
    (hreach : services.beforeInsert s w name = some (port, w6))
    (hins : (database.CreateTenant w6 (services.newRow 0 name port)).1 = .error e)
    (hrc : (utils.RemoveContainer (database.CreateTenant w6 (services.newRow 0 name port)).2
      ("files_" ++ name)).1 = none)
    (hrv : (utils.RemoveVolume (utils.RemoveContainer
      (database.CreateTenant w6 (services.newRow 0 name port)).2 ("files_" ++ name)).2
      (name ++ "_settings_vol")).1 = none)
    (hrd : (os.RemoveAll (utils.RemoveVolume (utils.RemoveContainer
      (database.CreateTenant w6 (services.newRow 0 name port)).2 ("files_" ++ name)).2
      (name ++ "_settings_vol")).2 (s.baseDir ++ ["tenants", name])).1 = none) :
    (services.CreateTenant s w name).1 =
      .error ("failed to save tenant to database: " ++ e) ∧
    ⟨Call.containerStart ("files_" ++ name), true⟩ ∈ w.newCalls w6 ∧
    (∃ o, w.newCalls (services.CreateTenant s w name).2 =
      w.newCalls w6 ++
        [⟨Call.dbCreate name port, false⟩, ⟨Call.containerStop ("files_" ++ name), o⟩,
          ⟨Call.containerRemove ("files_" ++ name), true⟩,
          ⟨Call.volumeRemove (name ++ "_settings_vol"), true⟩,
          ⟨Call.removeAll (s.baseDir ++ ["tenants", name]), true⟩]) ∧
    (services.CreateTenant s w name).2.hasContainer ("files_" ++ name) = false ∧
    (services.CreateTenant s w name).2.hasVolume (name ++ "_settings_vol") = false ∧
    (∀ q, (s.baseDir ++ ["tenants", name]).isPrefixOf q = true →
      (services.CreateTenant s w name).2.hasDir q = false) ∧
    (services.CreateTenant s w name).2.hasRecord name = false := by
  obtain ⟨⟨l, hl, hstart⟩, hstore⟩ := beforeInsert_reached s w name port w6 hreach
  rw [createTenant_of_failed_insert s w name port w6 e hreach hins]
  have hcalls6 : w.newCalls w6 = l := newCalls_eq _ _ _ hl
  refine ⟨rfl, by rw [hcalls6]; exact hstart, ?_, ?_, ?_, ?_, ?_⟩
  · refine ⟨(utils.StopContainer (database.CreateTenant w6 (services.newRow 0 name port)).2
      ("files_" ++ name)).1.isNone, ?_⟩
    rw [hcalls6]
    apply newCalls_eq
    simp only [removeAll_trace, RemoveVolume_trace, RemoveContainer_trace, dbCreate_trace, hl,
      hins, hrc, hrv, hrd, succeeded, Option.isNone_none]
    simp [services.newRow]
  · have := RemoveContainer_none _ _ hrc
    simpa only [World.hasContainer, removeAll_docker, RemoveVolume_containers] using this
  · have := RemoveVolume_none _ _ hrv
    simpa only [World.hasVolume, removeAll_docker] using this
  · exact RemoveAll_none _ _ hrd
  · simp only [World.hasRecord, removeAll_store, RemoveVolume_store, RemoveContainer_store,
      dbCreate_failed _ _ _ hins, hstore]
    exact hfresh

/-- The empty deployment in which the Store insert (the fourteenth call) fails. -/
theorem createTenant_persist_failure_compensated_witness :
    (services.CreateTenant demoService (demoFailingAt 13) "acme").1 =
      .error ("failed to save tenant to database: " ++ "failed to insert tenant: injected") ∧
    ⟨Call.containerStart ("files_" ++ "acme"), true⟩ ∈ (demoFailingAt 13).newCalls demoAtInsert ∧
    (∃ o, (demoFailingAt 13).newCalls (services.CreateTenant demoService (demoFailingAt 13)
        "acme").2 =
      (demoFailingAt 13).newCalls demoAtInsert ++
        [⟨Call.dbCreate "acme" 9000, false⟩, ⟨Call.containerStop ("files_" ++ "acme"), o⟩,
          ⟨Call.containerRemove ("files_" ++ "acme"), true⟩,
          ⟨Call.volumeRemove ("acme" ++ "_settings_vol"), true⟩,
          ⟨Call.removeAll (demoService.baseDir ++ ["tenants", "acme"]), true⟩]) ∧
    (services.CreateTenant demoService (demoFailingAt 13) "acme").2.hasContainer
      ("files_" ++ "acme") = false ∧
    (services.CreateTenant demoService (demoFailingAt 13) "acme").2.hasVolume
      ("acme" ++ "_settings_vol") = false ∧
    (∀ q, (demoService.baseDir ++ ["tenants", "acme"]).isPrefixOf q = true →
      (services.CreateTenant demoService (demoFailingAt 13) "acme").2.hasDir q = false) ∧
    (services.CreateTenant demoService (demoFailingAt 13) "acme").2.hasRecord "acme" = false :=
  createTenant_persist_failure_compensated demoService (demoFailingAt 13) "acme" 9000
    demoAtInsert "failed to insert tenant: injected" rfl rfl rfl rfl rfl rfl

/-- Claim C1 fails as stated: the Store holds `acme`, whose container is gone,
and the lookup of `CreateTenant` fails.  The container is created and started,
the insert fails on the unique name, the three removals succeed, and the Store
record of `acme` is still there. -/
theorem createTenant_failed_insert_keeps_record :
    (services.CreateTenant demoService (demoOrphanRecord [0]) "acme").1 =
      .error ("failed to save tenant to database: " ++
        "failed to insert tenant: UNIQUE constraint failed: tenants.name") ∧
    (demoOrphanRecord [0]).newCalls
        (services.CreateTenant demoService (demoOrphanRecord [0]) "acme").2 =
      [⟨Call.dbGetByName "acme", false⟩, ⟨Call.dbMaxPort, true⟩,
        ⟨Call.mkdirAll ["srv", "tenants", "acme", "files"], true⟩,
        ⟨Call.mkdirAll ["srv", "tenants", "acme", "config"], true⟩,
        ⟨Call.volumeList, true⟩, ⟨Call.imageInspect utils.imageRef, true⟩,
        ⟨Call.imagePull utils.imageRef, true⟩, ⟨Call.pullRead utils.imageRef, true⟩,
        ⟨Call.containerCreate "files_acme", true⟩, ⟨Call.containerStart "files_acme", true⟩,
        ⟨Call.containerLogs "files_acme", true⟩, ⟨Call.logsRead "files_acme", true⟩,
        ⟨Call.dbCreate "acme" 9001, false⟩, ⟨Call.containerStop "files_acme", true⟩,
        ⟨Call.containerRemove "files_acme", true⟩,
        ⟨Call.volumeRemove "acme_settings_vol", true⟩,
        ⟨Call.removeAll ["srv", "tenants", "acme"], true⟩] ∧
    (services.CreateTenant demoService (demoOrphanRecord [0]) "acme").2.hasContainer
      "files_acme" = false ∧
    (services.CreateTenant demoService (demoOrphanRecord [0]) "acme").2.hasVolume
      "acme_settings_vol" = false ∧
    (services.CreateTenant demoService (demoOrphanRecord [0]) "acme").2.hasDir
      ["srv", "tenants", "acme"] = false ∧
    (services.CreateTenant demoService (demoOrphanRecord [0]) "acme").2.hasRecord
      "acme" = true :=
  ⟨rfl, rfl, rfl, rfl, rfl, rfl⟩

/-- Claim C5, evaluated where the Store holds `acme` with its directories and
its running container and the lookup of `CreateTenant` fails: the result is
not the conflict error, a port is queried, the directories of the existing
tenant are made again and then removed. -/
theorem createTenant_lookup_failure_proceeds :
    (demoTenantFailingIn "running" true "running" [0]).hasRecord "acme" = true ∧
    (services.CreateTenant demoService (demoTenantFailingIn "running" true "running" [0])
        "acme").1 =
      .error ("failed to create container: failed to create container: " ++
        "Conflict. The container name files_acme is already in use") ∧
    (demoTenantFailingIn "running" true "running" [0]).newCalls
        (services.CreateTenant demoService (demoTenantFailingIn "running" true "running" [0])
          "acme").2 =
      [⟨Call.dbGetByName "acme", false⟩, ⟨Call.dbMaxPort, true⟩,
        ⟨Call.mkdirAll ["srv", "tenants", "acme", "files"], true⟩,
        ⟨Call.mkdirAll ["srv", "tenants", "acme", "config"], true⟩,
        ⟨Call.volumeList, true⟩, ⟨Call.imageInspect utils.imageRef, true⟩,
        ⟨Call.imagePull utils.imageRef, true⟩, ⟨Call.pullRead utils.imageRef, true⟩,
        ⟨Call.containerCreate "files_acme", false⟩,
        ⟨Call.removeAll ["srv", "tenants", "acme"], true⟩] ∧
    (demoTenantFailingIn "running" true "running" [0]).hasDir
      ["srv", "tenants", "acme", "files"] = true ∧
    (services.CreateTenant demoService (demoTenantFailingIn "running" true "running" [0])
      "acme").2.hasDir ["srv", "tenants", "acme", "files"] = false :=
  ⟨rfl, rfl, rfl, rfl, rfl⟩

end TenantManager
